import Mathlib

set_option maxRecDepth 100000

/-!
Verification of the `ilc` IRC-log converter (Rust) against its design
specification.  We shallowly embed the core of the program:

* `src/format/weechat3.rs` — the reference line-oriented text codec
  (tokenizing decoder `Iter::next`, encoder `Weechat3::encode`);
* `src/format/mod.rs` — the codec registry (`decoder`/`encoder`) and
  `strip_one`;
* `src/main.rs` — the `sort`, `dedup` and `seen` command loops and the
  order of operations in `main`;
* `src/lib.rs` — the `IlcError` type.

Rust strings are modelled as lists of Unicode scalar values (`List Char`);
machine integers (`i64` timestamps) as `Int`.  Code that the repository
uses but that is not part of it (the `chrono` timestamp layer, and the
missing `ageset.rs` / `event.rs` helpers) is modelled from the
specification and marked as such in doc comments.
-/

namespace Ilc

/-- Strings of the embedded program: sequences of Unicode scalar values. -/
abbrev Str := List Char

/-- Shorthand turning a Lean string literal into an embedded string. -/
def sLit (s : String) : Str := s.data

/-- Rust `char::is_whitespace`: the Unicode `White_Space` property.
The 25 code points with that property, listed explicitly. -/
def rustIsWhitespace (c : Char) : Bool :=
  c.toNat == 0x9 || c.toNat == 0xa || c.toNat == 0xb || c.toNat == 0xc ||
  c.toNat == 0xd || c.toNat == 0x20 || c.toNat == 0x85 || c.toNat == 0xa0 ||
  c.toNat == 0x1680 || (0x2000 <= c.toNat && c.toNat <= 0x200a) ||
  c.toNat == 0x2028 || c.toNat == 0x2029 || c.toNat == 0x202f ||
  c.toNat == 0x205f || c.toNat == 0x3000

/-- Model of the tokenization step of `Iter::next` (weechat3.rs:58-61):
`self.buffer.split(|c| …)` with the closure pushing every split character
onto `split_tokens`.  Returns the first token together with the list of
(separator, following token) groups; a string with `n` whitespace
characters thus yields `n+1` tokens and `n` separators, in order. -/
def splitKeep : Str → Str × List (Char × Str)
  | [] => ([], [])
  | c :: rest =>
    let r := splitKeep rest
    if rustIsWhitespace c then ([], (c, r.1) :: r.2) else (c :: r.1, r.2)

/-- The token list produced by the split (Rust `tokens`). -/
def tokensOf (s : Str) : List Str :=
  (splitKeep s).1 :: (splitKeep s).2.map Prod.snd

/-- The retained separator characters (Rust `split_tokens`). -/
def sepsOf (s : Str) : List Char :=
  (splitKeep s).2.map Prod.fst

/-- Model of the local `join` helper of `Iter::next` (weechat3.rs:41-46):
zip the tokens with the retained separators, concatenate token-then-
separator pairs, and pop the final character. -/
def joinToks (ts : List Str) (ss : List Char) : Str :=
  (((ts.zip ss).map (fun p => p.1 ++ [p.2])).flatten).dropLast

/-- Model of the local `mask` helper of `Iter::next` (weechat3.rs:47-49):
strings of length ≥ 2 lose their first and last character, shorter ones
become empty. -/
def mask (s : Str) : Str :=
  if s.length ≥ 2 then (s.drop 1).dropLast else []

/-- Model of `strip_one` (format/mod.rs:76-78); the body is identical to
`mask`. -/
def strip_one (s : Str) : Str :=
  if s.length ≥ 2 then (s.drop 1).dropLast else []

/-- The canonical event model (spec §3; `Event` with variants as used by
weechat3.rs).  The Rust field `from` is a Lean keyword and is rendered
`sender`; `time` is an `i64` epoch timestamp modelled as `Int`. -/
inductive Event
  | msg (sender content : Str) (time : Int)
  | action (sender content : Str) (time : Int)
  | notice (nick content : Str) (time : Int)
  | join (nick channel mask : Str) (time : Int)
  | part (nick channel mask reason : Str) (time : Int)
  | quit (nick mask reason : Str) (time : Int)
  | nick (old new : Str) (time : Int)
  | disconnect (time : Int)
  deriving DecidableEq, Repr

/-- The timestamp of an event. -/
def Event.time : Event → Int
  | .msg _ _ t => t
  | .action _ _ t => t
  | .notice _ _ t => t
  | .join _ _ _ t => t
  | .part _ _ _ _ t => t
  | .quit _ _ _ t => t
  | .nick _ _ t => t
  | .disconnect t => t

/-- Modelled from the spec: the time-insensitive identity used by the
dedup engine via the missing `event.rs` `NoTimeHash` wrapper (spec §3:
two events are duplicates iff they are equal in every field except
`time`). -/
def noTimeEq : Event → Event → Bool
  | .msg a b _, .msg a' b' _ => a == a' && b == b'
  | .action a b _, .action a' b' _ => a == a' && b == b'
  | .notice a b _, .notice a' b' _ => a == a' && b == b'
  | .join a b c _, .join a' b' c' _ => a == a' && b == b' && c == c'
  | .part a b c d _, .part a' b' c' d' _ =>
    a == a' && b == b' && c == c' && d == d'
  | .quit a b c _, .quit a' b' c' _ => a == a' && b == b' && c == c'
  | .nick a b _, .nick a' b' _ => a == a' && b == b'
  | .disconnect _, .disconnect _ => true
  | _, _ => false

/-- The error type of the library (lib.rs:18-23); the payloads are
irrelevant to the claims and elided. -/
inductive IlcError
  | parse (s : Str)
  | chrono
  | io
  deriving DecidableEq, Repr

/-! ### Decimal digits and padded rendering

The `chrono` crate is an external collaborator; its fixed-layout
timestamp formatting and parsing (`%Y-%m-%d %H:%M:%S`, spec §4.3 step 4)
is modelled below from the spec. -/

/-- The decimal digit character for `d < 10`. -/
def digitChar (d : Nat) : Char := Char.ofNat (48 + d)

/-- The numeric value of a digit character. -/
def charVal (c : Char) : Nat := c.toNat - 48

/-- Whether a character is an ASCII decimal digit. -/
def isDigitB (c : Char) : Bool :=
  decide (48 ≤ c.toNat) && decide (c.toNat ≤ 57)

/-- Fuel-driven rendering of a natural number in decimal. -/
def toDecAux : Nat → Nat → Str
  | 0, _ => []
  | fuel + 1, n =>
    if n < 10 then [digitChar n]
    else toDecAux fuel (n / 10) ++ [digitChar (n % 10)]

/-- Decimal rendering of a natural number (most significant digit first). -/
def toDecChars (n : Nat) : Str := toDecAux (n + 1) n

/-- Zero-padded decimal rendering to width `w` (`%Y` pads to 4, the other
fields to 2). -/
def pad (w n : Nat) : Str :=
  List.replicate (w - (toDecChars n).length) '0' ++ toDecChars n

/-- The value of a digit string read most-significant-first. -/
def parseValD (s : Str) : Nat := s.foldl (fun a c => 10 * a + charVal c) 0

/-- Modelled from the spec: reading one numeric field of the fixed
timestamp layout — a nonempty all-digit token. -/
def parseNatD (s : Str) : Option Nat :=
  if s ≠ [] ∧ s.all isDigitB then some (parseValD s) else none

/-- Split a string on a single (non-retained) separator character. -/
def splitOnAux (sep : Char) : Str → Str × List Str
  | [] => ([], [])
  | c :: rest =>
    let r := splitOnAux sep rest
    if c == sep then ([], r.1 :: r.2) else (c :: r.1, r.2)

/-- The list of fields of `s` separated by `sep`. -/
def splitOnChar (sep : Char) (s : Str) : List Str :=
  (splitOnAux sep s).1 :: (splitOnAux sep s).2

/-! ### Proleptic Gregorian calendar

Modelled from the spec: the fixed textual layout `YYYY-MM-DD HH:MM:SS`
is "interpreted in UTC, producing an integer epoch time" (spec §4.3),
i.e. the proleptic Gregorian calendar with epoch 1970-01-01T00:00:00Z. -/

/-- Whether year `y` is a Gregorian leap year. -/
def leapB (y : Nat) : Bool :=
  y % 4 == 0 && (y % 100 != 0 || y % 400 == 0)

/-- Number of leap years strictly before year `y` (counting from year 0,
which is leap). -/
def leapsBefore (y : Nat) : Nat :=
  (y + 3) / 4 - (y + 99) / 100 + (y + 399) / 400

/-- Days from 0000-01-01 to the first day of year `y`. -/
def yearStart (y : Nat) : Nat := 365 * y + leapsBefore y

/-- Length of a year with leap flag `l`. -/
def yearLen (l : Bool) : Nat := if l then 366 else 365

/-- Days from the start of the year to the first day of month `m`
(1-based); index 13 is the year length. -/
def monthStart (l : Bool) (m : Nat) : Nat :=
  let L : Nat := if l then 1 else 0
  match m with
  | 0 => 0
  | 1 => 0
  | 2 => 31
  | 3 => 59 + L
  | 4 => 90 + L
  | 5 => 120 + L
  | 6 => 151 + L
  | 7 => 181 + L
  | 8 => 212 + L
  | 9 => 243 + L
  | 10 => 273 + L
  | 11 => 304 + L
  | 12 => 334 + L
  | _ => 365 + L

/-- Days in month `m` of a year with leap flag `l`. -/
def dim (l : Bool) (m : Nat) : Nat := monthStart l (m + 1) - monthStart l m

/-- Bounded search for the greatest year whose first day is at or before
absolute day `n`; the fuel only bounds the recursion depth. -/
def findYearAux : Nat → Nat → Nat → Nat
  | 0, y, _ => y
  | fuel + 1, y, n =>
    if yearStart (y + 1) ≤ n then findYearAux fuel (y + 1) n else y

/-- The year containing absolute day `n` (days since 0000-01-01). -/
def findYear (n : Nat) : Nat := findYearAux (n / 300 + 1) 0 n

/-- Bounded search for the month of a day-of-year `doy` (0-based). -/
def findMonthAux (l : Bool) : Nat → Nat → Nat → Nat
  | 0, m, _ => m
  | fuel + 1, m, doy =>
    if monthStart l (m + 1) ≤ doy then findMonthAux l fuel (m + 1) doy else m

/-- The (1-based) month containing day-of-year `doy`. -/
def findMonth (l : Bool) (doy : Nat) : Nat := findMonthAux l 12 1 doy

/-- Calendar date `(y, m, d)` of absolute day `n` (days since
0000-01-01). -/
def daysToCivil (n : Nat) : Nat × Nat × Nat :=
  let y := findYear n
  let doy := n - yearStart y
  let m := findMonth (leapB y) doy
  (y, m, doy - monthStart (leapB y) m + 1)

/-- Absolute day (days since 0000-01-01) of a calendar date. -/
def civilToDays (y m d : Nat) : Nat :=
  yearStart y + monthStart (leapB y) m + (d - 1)

/-- Absolute day of the epoch 1970-01-01 (`yearStart 1970`). -/
def epochShift : Nat := 719528

/-- Modelled from the spec: the date half of chrono\'s
`format(TIME_DATE_FORMAT)` (weechat3.rs:122-124), `%Y-%m-%d` in UTC. -/
def formatDate (t : Int) : Str :=
  let n := t.toNat
  let c := daysToCivil (n / 86400 + epochShift)
  pad 4 c.1 ++ ['-'] ++ pad 2 c.2.1 ++ ['-'] ++ pad 2 c.2.2

/-- Modelled from the spec: the time-of-day half of chrono\'s
`format(TIME_DATE_FORMAT)`, `%H:%M:%S` in UTC. -/
def formatTimeOfDay (t : Int) : Str :=
  let sod := t.toNat % 86400
  pad 2 (sod / 3600) ++ [':'] ++ pad 2 (sod % 3600 / 60) ++ [':'] ++ pad 2 (sod % 60)

/-- The full timestamp string written by the weechat3 encoder\'s local
`date` helper (weechat3.rs:122-124): date, one space, time of day. -/
def formatStamp (t : Int) : Str := formatDate t ++ [' '] ++ formatTimeOfDay t

/-- Modelled from the spec: chrono\'s
`UTC.datetime_from_str(date ++ " " ++ time, "%Y-%m-%d %H:%M:%S")`
(weechat3.rs:38-40) — three dash-separated numeric date fields, three
colon-separated numeric time fields, validated against the calendar, and
converted to epoch seconds; `none` models the `ParseError` case. -/
def parseTimestamp (date time : Str) : Option Int :=
  match splitOnChar '-' date, splitOnChar ':' time with
  | [ys, ms, ds], [hs, mis, ss] =>
    match parseNatD ys, parseNatD ms, parseNatD ds,
          parseNatD hs, parseNatD mis, parseNatD ss with
    | some y, some mo, some d, some h, some mi, some s =>
      if 1 ≤ mo ∧ mo ≤ 12 ∧ 1 ≤ d ∧ d ≤ dim (leapB y) mo ∧
         h ≤ 23 ∧ mi ≤ 59 ∧ s ≤ 59 then
        some (((civilToDays y mo d : Int) - (epochShift : Int)) * 86400 +
              ((3600 * h + 60 * mi + s : Nat) : Int))
      else none
    | _, _, _, _, _, _ => none
  | _, _ => none

/-! ### The weechat3 decoder (`Iter::next`, weechat3.rs:35-109)

Each Rust slice pattern with its guard is rendered as a condition on the
token list (length plus the literal and guard positions) together with
the arm\'s constructor; the arms are tried in source order. -/

/-- Shape `[date, time, "-->", nick, host, "has", "joined", channel, ..]`
(weechat3.rs:67-70). -/
def tryJoin (toks : List Str) : Option (Str × Str × (Int → Event)) :=
  if toks.length ≥ 8 ∧ toks.getD 2 [] = sLit "-->" ∧
     toks.getD 5 [] = sLit "has" ∧ toks.getD 6 [] = sLit "joined" then
    some (toks.getD 0 [], toks.getD 1 [],
      fun ts => .join (toks.getD 3 []) (toks.getD 7 []) (mask (toks.getD 4 [])) ts)
  else none

/-- Shape `[date, time, "<--", nick, host, "has", "left", channel, reason..]`
(weechat3.rs:71-74). -/
def tryPart (toks : List Str) (seps : List Char) :
    Option (Str × Str × (Int → Event)) :=
  if toks.length ≥ 8 ∧ toks.getD 2 [] = sLit "<--" ∧
     toks.getD 5 [] = sLit "has" ∧ toks.getD 6 [] = sLit "left" then
    some (toks.getD 0 [], toks.getD 1 [],
      fun ts => .part (toks.getD 3 []) (toks.getD 7 []) (mask (toks.getD 4 []))
        (mask (joinToks (toks.drop 8) (seps.drop 8))) ts)
  else none

/-- Shape `[date, time, "<--", nick, host, "has", "quit", reason..]`
(weechat3.rs:75-78). -/
def tryQuit (toks : List Str) (seps : List Char) :
    Option (Str × Str × (Int → Event)) :=
  if toks.length ≥ 7 ∧ toks.getD 2 [] = sLit "<--" ∧
     toks.getD 5 [] = sLit "has" ∧ toks.getD 6 [] = sLit "quit" then
    some (toks.getD 0 [], toks.getD 1 [],
      fun ts => .quit (toks.getD 3 []) (mask (toks.getD 4 []))
        (mask (joinToks (toks.drop 7) (seps.drop 7))) ts)
  else none

/-- Shape `[date, time, "--", notice, content..]` guarded by
`notice.starts_with("Notice(")` (weechat3.rs:79-85); the nick is the
slice `notice[7 .. len-2]`. -/
def tryNotice (toks : List Str) (seps : List Char) :
    Option (Str × Str × (Int → Event)) :=
  if toks.length ≥ 4 ∧ toks.getD 2 [] = sLit "--" ∧
     (toks.getD 3 []).take 7 = sLit "Notice(" then
    some (toks.getD 0 [], toks.getD 1 [],
      fun ts => .notice (((toks.getD 3 []).drop 7).dropLast.dropLast)
        (joinToks (toks.drop 4) (seps.drop 4)) ts)
  else none

/-- Shape `[date, time, "--", "irc:", "disconnected", "from", "server", ..]`
(weechat3.rs:86-88). -/
def tryDisconnect (toks : List Str) : Option (Str × Str × (Int → Event)) :=
  if toks.length ≥ 7 ∧ toks.getD 2 [] = sLit "--" ∧
     toks.getD 3 [] = sLit "irc:" ∧ toks.getD 4 [] = sLit "disconnected" ∧
     toks.getD 5 [] = sLit "from" ∧ toks.getD 6 [] = sLit "server" then
    some (toks.getD 0 [], toks.getD 1 [], fun ts => .disconnect ts)
  else none

/-- Shape `[date, time, "--", nick, verb, "now", "known", "as", new_nick]`
guarded by `verb == "is" || verb == "are"` (weechat3.rs:89-93); exactly
nine tokens. -/
def tryNick (toks : List Str) : Option (Str × Str × (Int → Event)) :=
  if toks.length = 9 ∧ toks.getD 2 [] = sLit "--" ∧
     (toks.getD 4 [] = sLit "is" ∨ toks.getD 4 [] = sLit "are") ∧
     toks.getD 5 [] = sLit "now" ∧ toks.getD 6 [] = sLit "known" ∧
     toks.getD 7 [] = sLit "as" then
    some (toks.getD 0 [], toks.getD 1 [],
      fun ts => .nick (toks.getD 3 []) (toks.getD 8 []) ts)
  else none

/-- Shape `[date, time, sp, "*", nick, msg..]` guarded by `sp.is_empty()`
(weechat3.rs:94-99). -/
def tryAction (toks : List Str) (seps : List Char) :
    Option (Str × Str × (Int → Event)) :=
  if toks.length ≥ 5 ∧ toks.getD 2 [] = ([] : Str) ∧
     toks.getD 3 [] = sLit "*" then
    some (toks.getD 0 [], toks.getD 1 [],
      fun ts => .action (toks.getD 4 [])
        (joinToks (toks.drop 5) (seps.drop 5)) ts)
  else none

/-- Shape `[date, time, nick, msg..]`, the lowest-priority fallback
(weechat3.rs:100-104). -/
def tryMsg (toks : List Str) (seps : List Char) :
    Option (Str × Str × (Int → Event)) :=
  if toks.length ≥ 3 then
    some (toks.getD 0 [], toks.getD 1 [],
      fun ts => .msg (toks.getD 2 [])
        (joinToks (toks.drop 3) (seps.drop 3)) ts)
  else none

/-- The full priority-ordered match of `Iter::next` (weechat3.rs:66-106):
first matching arm wins, later arms are not tried, no arm means the
catch-all `_ => ()`. -/
def lineShapes (toks : List Str) (seps : List Char) :
    Option (Str × Str × (Int → Event)) :=
  (tryJoin toks) <|> (tryPart toks seps) <|> (tryQuit toks seps) <|>
  (tryNotice toks seps) <|> (tryDisconnect toks) <|> (tryNick toks) <|>
  (tryAction toks seps) <|> (tryMsg toks seps)

/-- Outcome of processing one line: an event, a silent skip (the catch-all
arm loops), or a process abort — the `unwrap()` in the `timestamp` helper
(weechat3.rs:38-40) panics on a malformed timestamp. -/
inductive LineOut
  | ev (e : Event)
  | skip
  | panic
  deriving DecidableEq, Repr

/-- Processing of one buffered line by `Iter::next`: tokenize retaining
separators, drop the final token (`tokens[..tokens.len() - 1]`), match
the shapes in priority order, then evaluate the arm — whose `timestamp`
call panics if chrono cannot parse the date and time tokens. -/
def lineStep (line : Str) : LineOut :=
  let toks := (tokensOf line).dropLast
  let seps := sepsOf line
  match lineShapes toks seps with
  | none => .skip
  | some (date, time, build) =>
    match parseTimestamp date time with
    | some ts => .ev (build ts)
    | none => .panic

/-- The reader loop of `Iter::next` (weechat3.rs:51-56) over a stream of
`read_line` outcomes: `Ok(0)` (modelled by the empty list) and `Err(_)`
both end the sequence with `return None`; a successfully read line is
processed, a skipped line continues the loop.  Returns the events
yielded in order, paired with `true` when a malformed timestamp panic
aborted the process. -/
def runReadsW : List (Except IlcError Str) → List Event × Bool
  | [] => ([], false)
  | .error _ :: _ => ([], false)
  | .ok line :: rest =>
    match lineStep line with
    | .skip => runReadsW rest
    | .panic => ([], true)
    | .ev e => ((runReadsW rest).1.cons e, (runReadsW rest).2)

/-- The successive `read_line` results for a byte input: segments up to
and including each newline, with a final newline-less segment if any. -/
def linesOf : Str → List Str
  | [] => []
  | c :: rest =>
    if c = '\n' then ['\n'] :: linesOf rest
    else
      match linesOf rest with
      | [] => [[c]]
      | l :: ls => (c :: l) :: ls

/-- Decoding a whole (error-free) byte input with the weechat3 decoder. -/
def decodeInput (s : Str) : List Event × Bool :=
  runReadsW ((linesOf s).map Except.ok)

/-- The weechat3 encoder (`Weechat3::encode`, weechat3.rs:120-161): the
bytes written for one event; `Nick` falls into the final `_ => ()` arm
and writes nothing (the Rust function then returns `Ok(())`). -/
def encodeEvent (e : Event) : Str :=
  match e with
  | .msg sender content time =>
    formatStamp time ++ ['\t'] ++ sender ++ ['\t'] ++ content ++ ['\n']
  | .action sender content time =>
    formatStamp time ++ sLit "\t *\t" ++ sender ++ [' '] ++ content ++ ['\n']
  | .join nk channel mk time =>
    formatStamp time ++ sLit "\t-->\t" ++ nk ++ sLit " (" ++ mk ++
    sLit ") has joined " ++ channel ++ ['\n']
  | .part nk channel mk reason time =>
    formatStamp time ++ sLit "\t<--\t" ++ nk ++ sLit " (" ++ mk ++
    sLit ") has left " ++ channel ++
    (if reason.length > 0 then sLit " (" ++ reason ++ sLit ")" else []) ++ ['\n']
  | .quit nk mk reason time =>
    formatStamp time ++ sLit "\t<--\t" ++ nk ++ sLit " (" ++ mk ++
    sLit ") has quit" ++
    (if reason.length > 0 then sLit " (" ++ reason ++ sLit ")" else []) ++ ['\n']
  | .disconnect time =>
    formatStamp time ++ sLit "\t--\tirc: disconnected from server" ++ ['\n']
  | .notice nk content time =>
    formatStamp time ++ sLit "\t--\tNotice(" ++ nk ++ sLit "): " ++
    content ++ ['\n']
  | .nick _ _ _ => []

/-! ### Command loops of `main` (main.rs) -/

/-- Projection used by the `sort` branch (`flat_map(Result::ok)`,
main.rs:292-294) and implicitly by `dedup` (`if let Ok(e)`). -/
def exceptOk : Except IlcError Event → Option Event
  | .ok e => some e
  | .error _ => none

/-- The comparator of the `sort` branch: `a.time.cmp(&b.time)`
(main.rs:296), as a boolean "less or equal". -/
def timeLE (a b : Event) : Bool := decide (a.time ≤ b.time)

/-- The `sort` command (main.rs:289-299): collect the `Ok` events and
stable-sort them by `time` (Rust `Vec::sort_by` is a stable sort,
modelled by `List.mergeSort`). -/
def cmdSort (rs : List (Except IlcError Event)) : List Event :=
  (rs.filterMap exceptOk).mergeSort timeLE

/-- Modelled from the spec: `Type::involves` of the missing `event.rs`
(spec §4.5: message, action, notice, join, part, quit, or either side of
a nick change involve the nick; a disconnect involves nobody). -/
def involves (nick : Str) : Event → Bool
  | .msg s _ _ => s == nick
  | .action s _ _ => s == nick
  | .notice n _ _ => n == nick
  | .join n _ _ _ => n == nick
  | .part n _ _ _ _ => n == nick
  | .quit n _ _ _ => n == nick
  | .nick old new _ => old == nick || new == nick
  | .disconnect _ => false

/-- One iteration of the `seen` loop (main.rs:276-284): replace the
candidate when the event involves the nick and is strictly later than
the current candidate (or there is none). -/
def seenStep (nick : Str) (acc : Option Event) (m : Event) : Option Event :=
  if involves nick m &&
     (match acc with
      | none => true
      | some last => decide (m.time > last.time)) then some m else acc

/-- The `seen` command (main.rs:273-288) over the decoded events: the
final candidate, if any, is handed to the weechat3 encoder. -/
def cmdSeen (nick : Str) (evs : List Event) : Option Event :=
  evs.foldl (seenStep nick) none

/-- The age predicate passed to `prune` by the `dedup` branch
(main.rs:308-311): evict `a` when `newest_event.time - a.time > 5000`. -/
def agePred (e : Event) (a : Event) : Bool := decide (e.time - a.time > 5000)

/-- Modelled from the spec: `AgeSet::prune` of the missing `ageset.rs`
(spec §4.4) — pop entries from the front of the FIFO while the predicate
holds, stopping at the first survivor. -/
def pruneFIFO (p : Event → Bool) : List Event → List Event
  | [] => []
  | x :: xs => if p x then pruneFIFO p xs else x :: xs

/-- Modelled from the spec: `AgeSet::contains` keyed by time-insensitive
identity (spec §4.4). -/
def containsNT (st : List Event) (e : Event) : Bool :=
  st.any (fun a => noTimeEq a e)

/-- One iteration of the `dedup` loop (main.rs:305-318): prune relative
to the incoming event, then either drop it as a duplicate or push and
emit it. -/
def dedupStep (st : List Event) (e : Event) : List Event × Option Event :=
  let st1 := pruneFIFO (agePred e) st
  if containsNT st1 e then (st1, none) else (st1 ++ [e], some e)

/-- The `dedup` loop over the decoded results; `Err` records are skipped
by the `if let Ok(e)` (main.rs:306). -/
def dedupRun (st : List Event) : List (Except IlcError Event) → List Event
  | [] => []
  | .error _ :: rest => dedupRun st rest
  | .ok e :: rest =>
    match dedupStep st e with
    | (st1, none) => dedupRun st1 rest
    | (st1, some x) => x :: dedupRun st1 rest

/-- The `dedup` command (main.rs:300-319), starting from an empty
backlog. -/
def cmdDedup (rs : List (Except IlcError Event)) : List Event :=
  dedupRun [] rs

/-! ### The codec registry and the order of operations in `main` -/

/-- The registered format implementations (format/mod.rs:51-67). -/
inductive FormatTag
  | energymech
  | weechat3
  | binary
  deriving DecidableEq, Repr

/-- `format::decoder` (format/mod.rs:51-58): the name-to-factory match. -/
def decoderLookup (format : Str) : Option FormatTag :=
  if format = sLit "energymech" then some .energymech
  else if format = sLit "weechat3" then some .weechat3
  else if format = sLit "binary" then some .binary
  else none

/-- `format::encoder` (format/mod.rs:60-67): same table as the decoder. -/
def encoderLookup (format : Str) : Option FormatTag :=
  if format = sLit "energymech" then some .energymech
  else if format = sLit "weechat3" then some .weechat3
  else if format = sLit "binary" then some .binary
  else none

/-- Observable actions of `main` relevant to the registry claims. -/
inductive Step
  | openInput
  | openOutput
  | readRecord
  | writeRecord
  | dieUnknown (name : Str)
  deriving DecidableEq, Repr

/-- The order of operations of `main` for the `convert` command
(main.rs:143-206): the input files are opened (main.rs:159-180) and the
output file created (main.rs:182-189) before the command branch calls
`force_decoder`/`force_encoder` (main.rs:198-200), which `die` on an
unknown format name (main.rs:121-141); only then does the decode/encode
loop read and write records. -/
def mainStepsConvert (inf outf : Str) : List Step :=
  [Step.openInput, Step.openOutput] ++
  (match decoderLookup inf with
   | none => [Step.dieUnknown inf]
   | some _ =>
     match encoderLookup outf with
     | none => [Step.dieUnknown outf]
     | some _ => [Step.readRecord, Step.writeRecord])

/-! ### Well-formedness for the round-trip claim -/

/-- A single-token field: no character has the Unicode whitespace
property, so the tokenizer keeps it whole. -/
def wsFreeB (s : Str) : Bool := s.all (fun c => !rustIsWhitespace c)

/-- A free-text field that stays on one line. -/
def noNlB (s : Str) : Bool := s.all (fun c => c != '\n')

/-- Timestamps representable in the fixed layout with the nonnegative
4-digit years 1970-01-01T00:00:00Z through 9999-12-31T23:59:59Z. -/
def timeRange (t : Int) : Prop := 0 ≤ t ∧ t < 253402300800

/-- Well-formedness of an event for the encode-then-decode round trip:
single-token fields are whitespace-free, free-text fields contain no
newline, a `Msg` sender is nonempty and not one of the marker tokens,
and the timestamp is representable. -/
def wfEvent : Event → Prop
  | .msg sender content t =>
    wsFreeB sender ∧ sender ≠ [] ∧ sender ≠ sLit "-->" ∧
    sender ≠ sLit "<--" ∧ sender ≠ sLit "--" ∧ noNlB content ∧ timeRange t
  | .action sender content t => wsFreeB sender ∧ noNlB content ∧ timeRange t
  | .notice nk content t => wsFreeB nk ∧ noNlB content ∧ timeRange t
  | .join nk channel mk t => wsFreeB nk ∧ wsFreeB channel ∧ wsFreeB mk ∧ timeRange t
  | .part nk channel mk reason t =>
    wsFreeB nk ∧ wsFreeB channel ∧ wsFreeB mk ∧ noNlB reason ∧ timeRange t
  | .quit nk mk reason t => wsFreeB nk ∧ wsFreeB mk ∧ noNlB reason ∧ timeRange t
  | .nick _ _ _ => True
  | .disconnect t => timeRange t

/-- Replay of the `dedup` loop over already-unwrapped events; used to
show the loop depends only on the `Ok` projection of its input. -/
def dedupEvents (st : List Event) : List Event → List Event
  | [] => []
  | e :: rest =>
    match dedupStep st e with
    | (st1, none) => dedupEvents st1 rest
    | (st1, some x) => x :: dedupEvents st1 rest

/-- Alternating concatenation of (token, separator) pairs in front of a
tail; encoded lines are exhibited in this form to drive the tokenizer
lemmas. -/
def interleaveTok (hs : List (Str × Char)) (body : Str) : Str :=
  hs.foldr (fun p acc => p.1 ++ p.2 :: acc) body

/-- Reassembly of a split string: the first token followed by each
separator and its token, in order. -/
def recomp (r : Str × List (Char × Str)) : Str :=
  r.1 ++ (r.2.map (fun g => g.1 :: g.2)).flatten

/-! ## Theorems -/

theorem dedupRun_filterMap (rs : List (Except IlcError Event)) :
    ∀ st, dedupRun st rs = dedupEvents st (rs.filterMap exceptOk) := by
  induction rs with
  | nil => intro st; rfl
  | cons r rest ih =>
    intro st
    cases r with
    | error e => simpa [dedupRun, exceptOk] using ih st
    | ok e =>
      simp only [dedupRun, List.filterMap_cons, exceptOk, dedupEvents]
      cases h : dedupStep st e with
      | mk st1 out =>
        cases out with
        | none => simpa using ih st1
        | some x => simpa using congrArg (List.cons x) (ih st1)

/-- Claim C1 (code bug): on the line `bad bad hello`, whose date and time
tokens do not parse against the fixed layout, the decoder does not yield
a `DecodeError` and continue — the `unwrap()` in `timestamp`
(weechat3.rs:38-40) panics, aborting the whole process: the decode of
that single line ends in the panic outcome with no events, and a
well-formed line following the malformed one is never decoded. -/
theorem c1_malformed_timestamp_panics :
    lineStep (sLit "bad bad hello\n") = LineOut.panic ∧
    decodeInput (sLit "bad bad hello\n") = ([], true) ∧
    decodeInput (sLit "bad bad hello\n" ++
      sLit "2020-01-01 10:00:00\talice\thi\n") = ([], true) := by
  decide

/-- Claim C2 (code bug): `Ok(0) | Err(_) => return None` (weechat3.rs:54)
gives a read failure of the underlying stream and clean end-of-input the
same observable outcome: the lazy sequence simply ends, with identical
results for an erroring stream and an exhausted one — both with no
events and no panic, and likewise after a successfully decoded line. -/
theorem c2_read_error_indistinguishable_from_eof :
    runReadsW [Except.error IlcError.io] = runReadsW [] ∧
    runReadsW [Except.error IlcError.io] = ([], false) ∧
    runReadsW [Except.ok (sLit "2020-01-01 10:00:00\talice\thi\n"),
               Except.error IlcError.io] =
      runReadsW [Except.ok (sLit "2020-01-01 10:00:00\talice\thi\n")] := by
  decide

/-- Claim C3: the `dedup` loop handles each `Ok` event by pruning the
backlog relative to that event first, then testing time-insensitive
membership — dropping the event without emitting or re-inserting when
present, and otherwise pushing and emitting it; on the concrete
three-record scenario of the spec, exactly the first record is
emitted. -/
theorem c3_dedup_prune_then_contains (st : List Event) (e : Event)
    (rest : List (Except IlcError Event)) :
    (dedupRun st (Except.ok e :: rest) =
      if containsNT (pruneFIFO (agePred e) st) e then
        dedupRun (pruneFIFO (agePred e) st) rest
      else e :: dedupRun (pruneFIFO (agePred e) st ++ [e]) rest) ∧
    cmdDedup [Except.ok (.msg (sLit "alice") (sLit "hi") 1577872800),
              Except.ok (.msg (sLit "alice") (sLit "hi") 1577872800),
              Except.ok (.msg (sLit "alice") (sLit "hi") 1577872805)] =
      [.msg (sLit "alice") (sLit "hi") 1577872800] := by
  constructor
  · simp only [dedupRun, dedupStep]
    by_cases h : containsNT (pruneFIFO (agePred e) st) e = true
    · simp [h]
    · simp [h]
  · decide

/-- Claim C5, counterexample: for the unregistered format name `nope`,
`main` (convert) opens the input and creates the output file — I/O on
both streams — before the decoder lookup fails, so the failure is not
reported before any I/O on the input or output streams is attempted. -/
theorem c5_counterexample :
    decoderLookup (sLit "nope") = none ∧
    mainStepsConvert (sLit "nope") (sLit "weechat3") =
      [Step.openInput, Step.openOutput, Step.dieUnknown (sLit "nope")] := by
  decide

/-- Claim C5, amended: lookup of a format name not in the registry fails
(returns `None`, upon which `main` dies with the format-unknown
message), and the failure precedes any record read from the input or
written to the output — although the input files are opened and the
output file created before the lookup runs. -/
theorem c5_unknown_format_fails_before_record_io (inf outf : Str) :
    (decoderLookup inf = none ↔
      inf ≠ sLit "energymech" ∧ inf ≠ sLit "weechat3" ∧ inf ≠ sLit "binary") ∧
    (encoderLookup outf = none ↔
      outf ≠ sLit "energymech" ∧ outf ≠ sLit "weechat3" ∧ outf ≠ sLit "binary") ∧
    (decoderLookup inf = none →
      mainStepsConvert inf outf =
        [Step.openInput, Step.openOutput, Step.dieUnknown inf]) ∧
    ((decoderLookup inf).isSome → encoderLookup outf = none →
      mainStepsConvert inf outf =
        [Step.openInput, Step.openOutput, Step.dieUnknown outf]) ∧
    ((decoderLookup inf = none ∨ encoderLookup outf = none) →
      Step.readRecord ∉ mainStepsConvert inf outf ∧
      Step.writeRecord ∉ mainStepsConvert inf outf) := by
  refine ⟨?_, ?_, ?_, ?_, ?_⟩
  · unfold decoderLookup
    split
    · simp_all
    · split
      · simp_all
      · split <;> simp_all
  · unfold encoderLookup
    split
    · simp_all
    · split
      · simp_all
      · split <;> simp_all
  · intro h; simp [mainStepsConvert, h]
  · intro h1 h2
    rcases ho : decoderLookup inf with _ | tag
    · simp [ho] at h1
    · simp [mainStepsConvert, ho, h2]
  · intro h
    rcases h with h | h
    · simp [mainStepsConvert, h]
    · rcases ho : decoderLookup inf with _ | tag
      · simp [mainStepsConvert, ho]
      · simp [mainStepsConvert, ho, h]

/-- Claim C5 amended, witness at the concrete unknown input format
`nope` with output format `weechat3`. -/
theorem c5_unknown_format_fails_before_record_io_witness :
    Step.readRecord ∉ mainStepsConvert (sLit "nope") (sLit "weechat3") ∧
    Step.writeRecord ∉ mainStepsConvert (sLit "nope") (sLit "weechat3") :=
  (c5_unknown_format_fails_before_record_io (sLit "nope")
    (sLit "weechat3")).2.2.2.2 (Or.inl (by decide))

/-- Claim C9: unwrapping a bracketed or parenthesized field removes
exactly one leading and one trailing character and leaves the interior
unchanged, both for the decoder-local `mask` helper and for
`strip_one`. -/
theorem c9_strip_one_exact (c d : Char) (mid : Str) :
    mask (c :: (mid ++ [d])) = mid ∧ strip_one (c :: (mid ++ [d])) = mid := by
  have hlen : (c :: (mid ++ [d])).length ≥ 2 := by
    simp [List.length_append]
  have hdrop : ((c :: (mid ++ [d])).drop 1).dropLast = mid := by
    simp [List.dropLast_append_of_ne_nil]
  exact ⟨by simp [mask, hlen, hdrop], by simp [strip_one, hlen, hdrop]⟩

/-- Claim C10: the `sort` and `dedup` commands depend only on the
successfully decoded (`Ok`) events of their input: any two result
streams with the same `Ok` projection produce identical output, so
error records are silently discarded without influencing the result. -/
theorem c10_sort_dedup_ignore_errors
    (rs1 rs2 : List (Except IlcError Event))
    (h : rs1.filterMap exceptOk = rs2.filterMap exceptOk) :
    cmdSort rs1 = cmdSort rs2 ∧ cmdDedup rs1 = cmdDedup rs2 := by
  constructor
  · unfold cmdSort
    rw [h]
  · unfold cmdDedup
    rw [dedupRun_filterMap, dedupRun_filterMap, h]

/-- Claim C10, witness: a stream with an interleaved decode error versus
the error-free stream with the same `Ok` events. -/
theorem c10_sort_dedup_ignore_errors_witness :
    cmdSort [Except.ok (.msg (sLit "a") (sLit "x") 5),
             Except.error IlcError.io,
             Except.ok (.msg (sLit "b") (sLit "y") 3)] =
      cmdSort [Except.ok (.msg (sLit "a") (sLit "x") 5),
               Except.ok (.msg (sLit "b") (sLit "y") 3)] ∧
    cmdDedup [Except.ok (.msg (sLit "a") (sLit "x") 5),
              Except.error IlcError.io,
              Except.ok (.msg (sLit "b") (sLit "y") 3)] =
      cmdDedup [Except.ok (.msg (sLit "a") (sLit "x") 5),
                Except.ok (.msg (sLit "b") (sLit "y") 3)] :=
  c10_sort_dedup_ignore_errors _ _ (by decide)

theorem seenFold_inv (nick : Str) :
    ∀ (evs : List Event) (acc : Option Event),
    (evs.foldl (seenStep nick) acc = none →
      acc = none ∧ ∀ e ∈ evs, involves nick e = false) ∧
    (∀ m, evs.foldl (seenStep nick) acc = some m →
      ((∀ a, acc = some a → involves nick a = true) → involves nick m = true) ∧
      (m ∈ evs ∨ acc = some m) ∧
      (∀ e ∈ evs, involves nick e = true → e.time ≤ m.time) ∧
      (∀ a, acc = some a → a.time ≤ m.time)) := by
  intro evs
  induction evs with
  | nil =>
    intro acc
    refine ⟨fun h => ⟨h, by simp⟩, fun m hm => ?_⟩
    simp only [List.foldl_nil] at hm
    exact ⟨fun hi => hi m hm, Or.inr hm, by simp, fun a ha => by
      rw [hm] at ha; cases ha; omega⟩
  | cons x rest ih =>
    intro acc
    simp only [List.foldl_cons]
    rcases hacc : acc with _ | last
    · by_cases hx : involves nick x = true
      · have hstep : seenStep nick none x = some x := by
          simp [seenStep, hx]
        rw [hstep]
        constructor
        · intro h
          rcases (ih (some x)).2 with _
          have := (ih (some x)).1 h
          simp at this
        · intro m hm
          have h2 := (ih (some x)).2 m hm
          refine ⟨fun _ => h2.1 ?_, ?_, ?_, ?_⟩
          · intro a ha
            cases ha
            exact hx
          · rcases h2.2.1 with h | h
            · exact Or.inl (List.mem_cons_of_mem _ h)
            · cases h
              exact Or.inl (List.mem_cons_self _ _)
          · intro e he hinv
            rcases List.mem_cons.mp he with rfl | he
            · exact h2.2.2.2 e rfl
            · exact h2.2.2.1 e he hinv
          · intro a ha
            cases ha
      · have hstep : seenStep nick none x = none := by
          simp [seenStep, hx]
        rw [hstep]
        constructor
        · intro h
          refine ⟨rfl, ?_⟩
          intro e he
          rcases List.mem_cons.mp he with rfl | he
          · simpa using hx
          · exact ((ih none).1 h).2 e he
        · intro m hm
          have h2 := (ih none).2 m hm
          refine ⟨fun _ => h2.1 (by simp), ?_, ?_, ?_⟩
          · rcases h2.2.1 with h | h
            · exact Or.inl (List.mem_cons_of_mem _ h)
            · simp at h
          · intro e he hinv
            rcases List.mem_cons.mp he with rfl | he
            · exact absurd hinv (by simpa using hx)
            · exact h2.2.2.1 e he hinv
          · intro a ha
            cases ha
    · by_cases hx : (involves nick x && decide (x.time > last.time)) = true
      · have hstep : seenStep nick (some last) x = some x := by
          simp only [Bool.and_eq_true] at hx
          simp [seenStep, hx.1, hx.2]
        rw [hstep]
        simp only [Bool.and_eq_true, decide_eq_true_eq] at hx
        constructor
        · intro h
          have := (ih (some x)).1 h
          simp at this
        · intro m hm
          have h2 := (ih (some x)).2 m hm
          refine ⟨fun _ => h2.1 ?_, ?_, ?_, ?_⟩
          · intro a ha
            cases ha
            exact hx.1
          · rcases h2.2.1 with h | h
            · exact Or.inl (List.mem_cons_of_mem _ h)
            · cases h
              exact Or.inl (List.mem_cons_self _ _)
          · intro e he hinv
            rcases List.mem_cons.mp he with rfl | he
            · exact h2.2.2.2 e rfl
            · exact h2.2.2.1 e he hinv
          · intro a ha
            cases ha
            have hxm := h2.2.2.2 x rfl
            omega
      · have hstep : seenStep nick (some last) x = some last := by
          simp only [seenStep, hx]
          rfl
        rw [hstep]
        constructor
        · intro h
          have := (ih (some last)).1 h
          simp at this
        · intro m hm
          have h2 := (ih (some last)).2 m hm
          simp only [Bool.and_eq_true, decide_eq_true_eq, not_and, not_lt] at hx
          refine ⟨fun hi => h2.1 ?_, ?_, ?_, ?_⟩
          · intro a ha
            cases ha
            exact hi last rfl
          · rcases h2.2.1 with h | h
            · exact Or.inl (List.mem_cons_of_mem _ h)
            · exact Or.inr h
          · intro e he hinv
            rcases List.mem_cons.mp he with rfl | he
            · have h1 := hx hinv
              have h3 := h2.2.2.2 last rfl
              omega
            · exact h2.2.2.1 e he hinv
          · intro a ha
            cases ha
            exact h2.2.2.2 last rfl

/-- Claim C7: over any decoded event sequence, `seen` retains an event
iff some event involves the queried nick, and the retained event
involves the nick, occurs in the input, and has maximal time among all
events involving the nick.  The `Type::involves` relation of the missing
`event.rs` is modelled from spec §4.5. -/
theorem c7_seen_max (nick : Str) (evs : List Event) :
    (cmdSeen nick evs = none ↔ ∀ e ∈ evs, involves nick e = false) ∧
    (∀ m, cmdSeen nick evs = some m →
      involves nick m = true ∧ m ∈ evs ∧
      ∀ e ∈ evs, involves nick e = true → e.time ≤ m.time) := by
  have h := seenFold_inv nick evs none
  constructor
  · constructor
    · intro hn
      exact (h.1 hn).2
    · intro hall
      rcases hr : cmdSeen nick evs with _ | m
      · rfl
      · have h2 := h.2 m hr
        have hm : involves nick m = true := h2.1 (by simp)
        rcases h2.2.1 with hmem | habs
        · exact absurd hm (by simp [hall m hmem])
        · cases habs
  · intro m hm
    have h2 := h.2 m hm
    refine ⟨h2.1 (by simp), ?_, h2.2.2.1⟩
    rcases h2.2.1 with hmem | habs
    · exact hmem
    · cases habs

/-- Claim C7, witness: a concrete stream in which the nick `al` is
involved in two events; `seen` returns the later one. -/
theorem c7_seen_max_witness :
    involves (sLit "al") (Event.quit (sLit "al") (sLit "m") (sLit "") 9) = true ∧
    Event.quit (sLit "al") (sLit "m") (sLit "") 9 ∈
      [Event.msg (sLit "al") (sLit "x") 5,
       Event.quit (sLit "al") (sLit "m") (sLit "") 9,
       Event.msg (sLit "zz") (sLit "x") 50] ∧
    ∀ e ∈ [Event.msg (sLit "al") (sLit "x") 5,
           Event.quit (sLit "al") (sLit "m") (sLit "") 9,
           Event.msg (sLit "zz") (sLit "x") 50],
      involves (sLit "al") e = true →
      e.time ≤ (Event.quit (sLit "al") (sLit "m") (sLit "") 9).time :=
  (c7_seen_max (sLit "al")
    [Event.msg (sLit "al") (sLit "x") 5,
     Event.quit (sLit "al") (sLit "m") (sLit "") 9,
     Event.msg (sLit "zz") (sLit "x") 50]).2
    (Event.quit (sLit "al") (sLit "m") (sLit "") 9) (by decide)

/-- Claim C6: the `sort` command emits the decoded `Ok` events with
non-decreasing times, and events with equal times keep their relative
input order — for each time value, the equal-time subsequence of the
output equals that of the input. -/
theorem c6_sort_nondecreasing_stable (rs : List (Except IlcError Event)) :
    List.Pairwise (fun a b => a.time ≤ b.time) (cmdSort rs) ∧
    ∀ t : Int, (cmdSort rs).filter (fun e => decide (e.time = t)) =
      (rs.filterMap exceptOk).filter (fun e => decide (e.time = t)) := by
  have htrans : ∀ a b c : Event, timeLE a b = true → timeLE b c = true →
      timeLE a c = true := by
    intro a b c h1 h2
    simp only [timeLE, decide_eq_true_eq] at h1 h2 ⊢
    omega
  have htotal : ∀ a b : Event, (timeLE a b || timeLE b a) = true := by
    intro a b
    simp only [timeLE, Bool.or_eq_true, decide_eq_true_eq]
    omega
  constructor
  · have hs := List.sorted_mergeSort htrans htotal (rs.filterMap exceptOk)
    unfold cmdSort
    exact hs.imp (by intro a b h; simpa [timeLE] using h)
  · intro t
    set l := rs.filterMap exceptOk with hl
    set p : Event → Bool := fun e => decide (e.time = t) with hp
    have hpair : (l.filter p).Pairwise (fun a b => timeLE a b = true) := by
      apply List.pairwise_of_forall_mem_list
      intro a ha b hb
      have ha2 := (List.mem_filter.mp ha).2
      have hb2 := (List.mem_filter.mp hb).2
      simp only [hp, decide_eq_true_eq] at ha2 hb2
      simp [timeLE, ha2, hb2]
    have hsub : (l.filter p).Sublist ((l.mergeSort timeLE).filter p) := by
      have h1 : (l.filter p).Sublist (l.mergeSort timeLE) :=
        List.sublist_mergeSort htrans htotal hpair (List.filter_sublist l)
      have h2 := List.Sublist.filter p h1
      rwa [List.filter_filter, (by
        funext a
        cases hpa : p a <;> simp [hpa] : (fun a => p a && p a) = p)] at h2
    have hperm : ((l.mergeSort timeLE).filter p).Perm (l.filter p) :=
      List.Perm.filter p (List.mergeSort_perm l timeLE)
    have : (l.filter p) = ((l.mergeSort timeLE).filter p) :=
      hsub.eq_of_length (hperm.length_eq.symm)
    unfold cmdSort
    exact this.symm

/-- Claim C8: the decoder matches each line against the fixed shapes in
their stated priority order (join, part, quit, notice, disconnect, nick
change, action, message): the first arm that matches alone determines
the result and later arms are not consulted, and a line matching no arm
is skipped silently — the loop continues with the next line, emitting
neither an event nor an error. -/
theorem c8_priority_order (toks : List Str) (seps : List Char)
    (line : Str) (rest : List (Except IlcError Str)) :
    ((tryJoin toks).isSome = true →
      lineShapes toks seps = tryJoin toks) ∧
    (tryJoin toks = none → (tryPart toks seps).isSome = true →
      lineShapes toks seps = tryPart toks seps) ∧
    (tryJoin toks = none → tryPart toks seps = none →
      (tryQuit toks seps).isSome = true →
      lineShapes toks seps = tryQuit toks seps) ∧
    (tryJoin toks = none → tryPart toks seps = none →
      tryQuit toks seps = none → (tryNotice toks seps).isSome = true →
      lineShapes toks seps = tryNotice toks seps) ∧
    (tryJoin toks = none → tryPart toks seps = none →
      tryQuit toks seps = none → tryNotice toks seps = none →
      (tryDisconnect toks).isSome = true →
      lineShapes toks seps = tryDisconnect toks) ∧
    (tryJoin toks = none → tryPart toks seps = none →
      tryQuit toks seps = none → tryNotice toks seps = none →
      tryDisconnect toks = none → (tryNick toks).isSome = true →
      lineShapes toks seps = tryNick toks) ∧
    (tryJoin toks = none → tryPart toks seps = none →
      tryQuit toks seps = none → tryNotice toks seps = none →
      tryDisconnect toks = none → tryNick toks = none →
      (tryAction toks seps).isSome = true →
      lineShapes toks seps = tryAction toks seps) ∧
    (tryJoin toks = none → tryPart toks seps = none →
      tryQuit toks seps = none → tryNotice toks seps = none →
      tryDisconnect toks = none → tryNick toks = none →
      tryAction toks seps = none →
      lineShapes toks seps = tryMsg toks seps) ∧
    (lineShapes ((tokensOf line).dropLast) (sepsOf line) = none →
      lineStep line = LineOut.skip ∧
      runReadsW (Except.ok line :: rest) = runReadsW rest) := by
  refine ⟨?_, ?_, ?_, ?_, ?_, ?_, ?_, ?_, ?_⟩
  · intro h1
    rcases ho : tryJoin toks with _ | v
    · rw [ho] at h1; simp at h1
    · simp [lineShapes, ho]
  · intro h1 h2
    rcases ho : tryPart toks seps with _ | v
    · rw [ho] at h2; simp at h2
    · simp [lineShapes, h1, ho]
  · intro h1 h2 h3
    rcases ho : tryQuit toks seps with _ | v
    · rw [ho] at h3; simp at h3
    · simp [lineShapes, h1, h2, ho]
  · intro h1 h2 h3 h4
    rcases ho : tryNotice toks seps with _ | v
    · rw [ho] at h4; simp at h4
    · simp [lineShapes, h1, h2, h3, ho]
  · intro h1 h2 h3 h4 h5
    rcases ho : tryDisconnect toks with _ | v
    · rw [ho] at h5; simp at h5
    · simp [lineShapes, h1, h2, h3, h4, ho]
  · intro h1 h2 h3 h4 h5 h6
    rcases ho : tryNick toks with _ | v
    · rw [ho] at h6; simp at h6
    · simp [lineShapes, h1, h2, h3, h4, h5, ho]
  · intro h1 h2 h3 h4 h5 h6 h7
    rcases ho : tryAction toks seps with _ | v
    · rw [ho] at h7; simp at h7
    · simp [lineShapes, h1, h2, h3, h4, h5, h6, ho]
  · intro h1 h2 h3 h4 h5 h6 h7
    simp [lineShapes, h1, h2, h3, h4, h5, h6, h7]
  · intro h
    have hstep : lineStep line = LineOut.skip := by
      simp [lineStep, h]
    exact ⟨hstep, by simp [runReadsW, hstep]⟩

/-- Claim C8, witness: a three-token line hits only the lowest-priority
message arm, and the line `word` (a single token) matches no arm and is
skipped, the loop continuing with the rest of the stream. -/
theorem c8_priority_order_witness :
    lineShapes [sLit "a", sLit "b", sLit "c"] [' ', ' ', '\n'] =
      tryMsg [sLit "a", sLit "b", sLit "c"] [' ', ' ', '\n'] ∧
    runReadsW (Except.ok (sLit "word\n") ::
        [Except.ok (sLit "2020-01-01 10:00:00\talice\thi\n")]) =
      runReadsW [Except.ok (sLit "2020-01-01 10:00:00\talice\thi\n")] := by
  have h := c8_priority_order [sLit "a", sLit "b", sLit "c"] [' ', ' ', '\n']
    (sLit "word\n") [Except.ok (sLit "2020-01-01 10:00:00\talice\thi\n")]
  exact ⟨h.2.2.2.2.2.2.2.1 rfl rfl rfl rfl rfl rfl rfl,
    (h.2.2.2.2.2.2.2.2 rfl).2⟩

theorem charVal_digitChar {d : Nat} (h : d < 10) : charVal (digitChar d) = d := by
  interval_cases d <;> decide

theorem isDigitB_digitChar {d : Nat} (h : d < 10) : isDigitB (digitChar d) = true := by
  interval_cases d <;> decide

theorem toDecAux_all_digits : ∀ fuel n, (toDecAux fuel n).all isDigitB = true := by
  intro fuel
  induction fuel with
  | zero => intro n; rfl
  | succ fuel ih =>
    intro n
    unfold toDecAux
    by_cases h : n < 10
    · simp [h, isDigitB_digitChar h]
    · simp [h, List.all_append, ih (n / 10),
        isDigitB_digitChar (Nat.mod_lt n (by omega))]

theorem toDecChars_all_digits (n : Nat) : (toDecChars n).all isDigitB = true :=
  toDecAux_all_digits (n + 1) n

theorem toDecChars_ne_nil (n : Nat) : toDecChars n ≠ [] := by
  unfold toDecChars toDecAux
  by_cases h : n < 10 <;> simp [h]

theorem toDecAux_val : ∀ fuel n a, n < 10 ^ fuel →
    (toDecAux fuel n).foldl (fun a c => 10 * a + charVal c) a =
      a * 10 ^ (toDecAux fuel n).length + n := by
  intro fuel
  induction fuel with
  | zero => intro n a h; simp at h; simp [toDecAux, h]
  | succ fuel ih =>
    intro n a h
    unfold toDecAux
    by_cases h10 : n < 10
    · simp [h10, List.foldl, charVal_digitChar h10]
      ring
    · have hdiv : n / 10 < 10 ^ fuel := by
        rw [pow_succ] at h
        omega
      simp only [h10, if_false, List.foldl_append, List.length_append]
      rw [ih (n / 10) a hdiv]
      simp [charVal_digitChar (Nat.mod_lt n (by omega) : n % 10 < 10)]
      rw [pow_succ]
      have := Nat.div_add_mod n 10
      ring_nf
      omega

theorem parseValD_toDecChars (n : Nat) : parseValD (toDecChars n) = n := by
  unfold parseValD toDecChars
  rw [toDecAux_val (n + 1) n 0 (by
    calc n < 10 ^ n := Nat.lt_pow_self (by omega) n
    _ ≤ 10 ^ (n + 1) := Nat.pow_le_pow_right (by omega) (by omega))]
  simp

theorem parseValD_replicate_zero (k : Nat) (s : Str) :
    parseValD (List.replicate k '0' ++ s) = parseValD s := by
  unfold parseValD
  rw [List.foldl_append]
  congr 1
  induction k with
  | zero => rfl
  | succ k ih => simpa [List.replicate_succ, charVal] using ih

theorem pad_all_digits (w n : Nat) : (pad w n).all isDigitB = true := by
  unfold pad
  rw [List.all_append]
  have h0 : (List.replicate (w - (toDecChars n).length) '0').all isDigitB = true := by
    rw [List.all_eq_true]
    intro x hx
    rw [List.eq_of_mem_replicate hx]
    decide
  simp [h0, toDecChars_all_digits]

theorem pad_ne_nil (w n : Nat) : pad w n ≠ [] := by
  unfold pad
  simp [toDecChars_ne_nil n]

theorem parseNatD_pad (w n : Nat) : parseNatD (pad w n) = some n := by
  unfold parseNatD
  rw [if_pos ⟨pad_ne_nil w n, pad_all_digits w n⟩]
  unfold pad
  rw [parseValD_replicate_zero, parseValD_toDecChars]

theorem digit_not_ws {c : Char} (h : isDigitB c = true) :
    rustIsWhitespace c = false := by
  simp only [isDigitB, Bool.and_eq_true, decide_eq_true_eq] at h
  simp only [rustIsWhitespace, Bool.or_eq_false_iff, beq_eq_false_iff_ne, ne_eq,
    Bool.and_eq_false_iff, decide_eq_false_iff_not, not_le]
  omega

theorem digit_ne_dash {c : Char} (h : isDigitB c = true) : (c == '-') = false := by
  rw [beq_eq_false_iff_ne]
  intro hEq
  subst hEq
  exact absurd h (by decide)

theorem digit_ne_colon {c : Char} (h : isDigitB c = true) : (c == ':') = false := by
  rw [beq_eq_false_iff_ne]
  intro hEq
  subst hEq
  exact absurd h (by decide)

theorem splitOnAux_no_sep (sep : Char) :
    ∀ (t rest : Str), t.all (fun c => !(c == sep)) = true →
    splitOnAux sep (t ++ rest) =
      (t ++ (splitOnAux sep rest).1, (splitOnAux sep rest).2) := by
  intro t
  induction t with
  | nil => intro rest _; simp
  | cons c t ih =>
    intro rest h
    simp only [List.all_cons, Bool.and_eq_true, Bool.not_eq_true'] at h
    simp [splitOnAux, h.1, ih rest h.2]

theorem splitOnChar_three (sep : Char) (a b c : Str)
    (ha : a.all (fun x => !(x == sep)) = true)
    (hb : b.all (fun x => !(x == sep)) = true)
    (hc : c.all (fun x => !(x == sep)) = true) :
    splitOnChar sep (a ++ [sep] ++ b ++ [sep] ++ c) = [a, b, c] := by
  unfold splitOnChar
  have h1 : a ++ [sep] ++ b ++ [sep] ++ c = a ++ (sep :: (b ++ (sep :: c))) := by
    simp
  rw [h1, splitOnAux_no_sep sep a _ ha]
  have h2 : splitOnAux sep (sep :: (b ++ (sep :: c))) =
      ([], (splitOnAux sep (b ++ (sep :: c))).1 ::
        (splitOnAux sep (b ++ (sep :: c))).2) := by
    simp [splitOnAux]
  rw [h2, splitOnAux_no_sep sep b _ hb]
  have h3 : splitOnAux sep (sep :: c) =
      ([], (splitOnAux sep c).1 :: (splitOnAux sep c).2) := by
    simp [splitOnAux]
  rw [h3]
  have h4 : splitOnAux sep c = (c, []) := by
    have := splitOnAux_no_sep sep c [] hc
    simpa [splitOnAux] using this
  rw [h4]
  simp

theorem leapB_iff (y : Nat) :
    leapB y = true ↔ (y % 4 = 0 ∧ (y % 100 ≠ 0 ∨ y % 400 = 0)) := by
  simp [leapB]

theorem yearStart_ge (y : Nat) : 365 * y ≤ yearStart y := by
  unfold yearStart leapsBefore
  omega

set_option maxHeartbeats 2000000 in
theorem yearStart_succ (y : Nat) :
    yearStart (y + 1) = yearStart y + yearLen (leapB y) := by
  by_cases h : leapB y = true
  · have hp := (leapB_iff y).mp h
    rw [h]
    have hyl : yearLen true = 366 := rfl
    rw [hyl]
    unfold yearStart leapsBefore
    omega
  · rw [Bool.not_eq_true] at h
    have hp : ¬(y % 4 = 0 ∧ (y % 100 ≠ 0 ∨ y % 400 = 0)) := fun hc => by
      rw [(leapB_iff y).mpr hc] at h
      cases h
    rw [h]
    have hyl : yearLen false = 365 := rfl
    rw [hyl]
    unfold yearStart leapsBefore
    omega

theorem findYearAux_spec :
    ∀ fuel y n, yearStart y ≤ n → n < 365 * (y + fuel) →
    yearStart (findYearAux fuel y n) ≤ n ∧
    n < yearStart (findYearAux fuel y n + 1) := by
  intro fuel
  induction fuel with
  | zero =>
    intro y n h1 h2
    have := yearStart_ge y
    omega
  | succ fuel ih =>
    intro y n h1 h2
    unfold findYearAux
    by_cases hc : yearStart (y + 1) ≤ n
    · simp only [hc, if_true]
      exact ih (y + 1) n hc (by omega)
    · simp only [hc, if_false]
      exact ⟨h1, by omega⟩

theorem findYear_spec (n : Nat) :
    yearStart (findYear n) ≤ n ∧ n < yearStart (findYear n + 1) := by
  unfold findYear
  refine findYearAux_spec (n / 300 + 1) 0 n ?_ ?_
  · unfold yearStart leapsBefore
    omega
  · omega

theorem monthStart_13 (l : Bool) : monthStart l 13 = yearLen l := by
  cases l <;> decide

theorem monthStart_one (l : Bool) : monthStart l 1 = 0 := by
  cases l <;> decide

theorem findMonthAux_spec (l : Bool) :
    ∀ fuel m doy, 1 ≤ m → m ≤ 12 → 12 ≤ m + fuel →
    monthStart l m ≤ doy → doy < monthStart l 13 →
    1 ≤ findMonthAux l fuel m doy ∧ findMonthAux l fuel m doy ≤ 12 ∧
    monthStart l (findMonthAux l fuel m doy) ≤ doy ∧
    doy < monthStart l (findMonthAux l fuel m doy + 1) := by
  intro fuel
  induction fuel with
  | zero =>
    intro m doy h1 h2 h3 h4 h5
    have hm : m = 12 := by omega
    subst hm
    simp only [findMonthAux]
    have h13 : monthStart l (12 + 1) = monthStart l 13 := by norm_num
    exact ⟨by omega, by omega, h4, by omega⟩
  | succ fuel ih =>
    intro m doy h1 h2 h3 h4 h5
    unfold findMonthAux
    by_cases hc : monthStart l (m + 1) ≤ doy
    · simp only [hc, if_true]
      have hm12 : m ≠ 12 := by
        intro hEq
        subst hEq
        have h13 : monthStart l (12 + 1) = monthStart l 13 := by norm_num
        omega
      exact ih (m + 1) doy (by omega) (by omega) (by omega) hc h5
    · simp only [hc, if_false]
      exact ⟨h1, h2, h4, by omega⟩

theorem findMonth_spec (l : Bool) (doy : Nat) (h : doy < monthStart l 13) :
    1 ≤ findMonth l doy ∧ findMonth l doy ≤ 12 ∧
    monthStart l (findMonth l doy) ≤ doy ∧
    doy < monthStart l (findMonth l doy + 1) := by
  unfold findMonth
  refine findMonthAux_spec l 12 1 doy (by omega) (by omega) (by omega) ?_ h
  rw [monthStart_one]
  omega

theorem daysToCivil_spec (z : Nat) :
    1 ≤ (daysToCivil z).2.1 ∧ (daysToCivil z).2.1 ≤ 12 ∧
    1 ≤ (daysToCivil z).2.2 ∧
    (daysToCivil z).2.2 ≤ dim (leapB (daysToCivil z).1) (daysToCivil z).2.1 ∧
    civilToDays (daysToCivil z).1 (daysToCivil z).2.1 (daysToCivil z).2.2 = z := by
  have hys := findYear_spec z
  have hdoylt : z - yearStart (findYear z) < monthStart (leapB (findYear z)) 13 := by
    rw [monthStart_13]
    have := yearStart_succ (findYear z)
    omega
  obtain ⟨hm1, hm2, hm3, hm4⟩ :=
    findMonth_spec (leapB (findYear z)) (z - yearStart (findYear z)) hdoylt
  have hmono : monthStart (leapB (findYear z))
      (findMonth (leapB (findYear z)) (z - yearStart (findYear z))) ≤
      monthStart (leapB (findYear z))
      (findMonth (leapB (findYear z)) (z - yearStart (findYear z)) + 1) := by
    omega
  unfold daysToCivil civilToDays
  simp only [dim]
  refine ⟨by omega, hm2, by omega, by omega, by omega⟩

theorem wsFreeB_append (a b : Str) :
    wsFreeB (a ++ b) = (wsFreeB a && wsFreeB b) := List.all_append

theorem pad_wsFree (w n : Nat) : wsFreeB (pad w n) = true := by
  rw [wsFreeB, List.all_eq_true]
  intro c hc
  have hd : isDigitB c = true := by
    have := pad_all_digits w n
    rw [List.all_eq_true] at this
    exact this c hc
  simp [digit_not_ws hd]

theorem pad_no_sep (w n : Nat) (sep : Char)
    (hsep : ∀ c, isDigitB c = true → (c == sep) = false) :
    (pad w n).all (fun x => !(x == sep)) = true := by
  rw [List.all_eq_true]
  intro c hc
  have hd : isDigitB c = true := by
    have := pad_all_digits w n
    rw [List.all_eq_true] at this
    exact this c hc
  simp [hsep c hd]

theorem formatDate_wsFree (t : Int) : wsFreeB (formatDate t) = true := by
  unfold formatDate
  simp only [wsFreeB_append, Bool.and_eq_true]
  refine ⟨⟨⟨⟨pad_wsFree _ _, ?_⟩, pad_wsFree _ _⟩, ?_⟩, pad_wsFree _ _⟩ <;> decide

theorem formatTimeOfDay_wsFree (t : Int) : wsFreeB (formatTimeOfDay t) = true := by
  unfold formatTimeOfDay
  simp only [wsFreeB_append, Bool.and_eq_true]
  refine ⟨⟨⟨⟨pad_wsFree _ _, ?_⟩, pad_wsFree _ _⟩, ?_⟩, pad_wsFree _ _⟩ <;> decide

theorem parseTimestamp_eq (D T ds1 ds2 ds3 ts1 ts2 ts3 : Str)
    (y mo dd h mi sec : Nat)
    (hD : splitOnChar '-' D = [ds1, ds2, ds3])
    (hT : splitOnChar ':' T = [ts1, ts2, ts3])
    (h1 : parseNatD ds1 = some y) (h2 : parseNatD ds2 = some mo)
    (h3 : parseNatD ds3 = some dd) (h4 : parseNatD ts1 = some h)
    (h5 : parseNatD ts2 = some mi) (h6 : parseNatD ts3 = some sec)
    (h9 : 1 ≤ mo ∧ mo ≤ 12 ∧ 1 ≤ dd ∧ dd ≤ dim (leapB y) mo ∧
          h ≤ 23 ∧ mi ≤ 59 ∧ sec ≤ 59) :
    parseTimestamp D T =
      some (((civilToDays y mo dd : Int) - (epochShift : Int)) * 86400 +
            ((3600 * h + 60 * mi + sec : Nat) : Int)) := by
  unfold parseTimestamp
  rw [hD, hT]
  simp only [h1, h2, h3, h4, h5, h6]
  rw [if_pos h9]

theorem splitOnChar_formatDate (t : Int) :
    splitOnChar '-' (formatDate t) =
      [pad 4 (daysToCivil (t.toNat / 86400 + epochShift)).1,
       pad 2 (daysToCivil (t.toNat / 86400 + epochShift)).2.1,
       pad 2 (daysToCivil (t.toNat / 86400 + epochShift)).2.2] := by
  have hfd : formatDate t =
      pad 4 (daysToCivil (t.toNat / 86400 + epochShift)).1 ++ ['-'] ++
      pad 2 (daysToCivil (t.toNat / 86400 + epochShift)).2.1 ++ ['-'] ++
      pad 2 (daysToCivil (t.toNat / 86400 + epochShift)).2.2 := by
    simp only [formatDate]
  rw [hfd]
  exact splitOnChar_three '-' _ _ _
      (pad_no_sep _ _ _ (fun c hc => digit_ne_dash hc))
      (pad_no_sep _ _ _ (fun c hc => digit_ne_dash hc))
      (pad_no_sep _ _ _ (fun c hc => digit_ne_dash hc))

theorem splitOnChar_formatTimeOfDay (t : Int) :
    splitOnChar ':' (formatTimeOfDay t) =
      [pad 2 (t.toNat % 86400 / 3600),
       pad 2 (t.toNat % 86400 % 3600 / 60),
       pad 2 (t.toNat % 86400 % 60)] := by
  have hft : formatTimeOfDay t =
      pad 2 (t.toNat % 86400 / 3600) ++ [':'] ++
      pad 2 (t.toNat % 86400 % 3600 / 60) ++ [':'] ++
      pad 2 (t.toNat % 86400 % 60) := by
    simp only [formatTimeOfDay]
  rw [hft]
  exact splitOnChar_three ':' _ _ _
      (pad_no_sep _ _ _ (fun c hc => digit_ne_colon hc))
      (pad_no_sep _ _ _ (fun c hc => digit_ne_colon hc))
      (pad_no_sep _ _ _ (fun c hc => digit_ne_colon hc))

theorem parseTimestamp_formatStamp (t : Int) (h0 : 0 ≤ t)
    (h1 : t < 253402300800) :
    parseTimestamp (formatDate t) (formatTimeOfDay t) = some t := by
  obtain ⟨hc1, hc2, hc3, hc4, hc5⟩ := daysToCivil_spec (t.toNat / 86400 + epochShift)
  rw [parseTimestamp_eq (formatDate t) (formatTimeOfDay t) _ _ _ _ _ _ _ _ _ _ _ _
      (splitOnChar_formatDate t) (splitOnChar_formatTimeOfDay t) (parseNatD_pad _ _) (parseNatD_pad _ _) (parseNatD_pad _ _)
      (parseNatD_pad _ _) (parseNatD_pad _ _) (parseNatD_pad _ _)
      ⟨hc1, hc2, hc3, hc4, by omega, by omega, by omega⟩]
  congr 1
  rw [hc5]
  push_cast
  omega

theorem splitKeep_token :
    ∀ (tk rest : Str), wsFreeB tk = true →
    splitKeep (tk ++ rest) = (tk ++ (splitKeep rest).1, (splitKeep rest).2) := by
  intro tk
  induction tk with
  | nil => intro rest _; simp
  | cons c tk ih =>
    intro rest h
    simp only [wsFreeB, List.all_cons, Bool.and_eq_true, Bool.not_eq_true'] at h
    have ih2 := ih rest h.2
    simp [splitKeep, h.1, ih2]

theorem splitKeep_sep (c : Char) (rest : Str) (h : rustIsWhitespace c = true) :
    splitKeep (c :: rest) = ([], (c, (splitKeep rest).1) :: (splitKeep rest).2) := by
  simp [splitKeep, h]

theorem tokensOf_interleave :
    ∀ (hs : List (Str × Char)) (body : Str),
    (∀ p ∈ hs, wsFreeB p.1 = true ∧ rustIsWhitespace p.2 = true) →
    tokensOf (interleaveTok hs body) = hs.map Prod.fst ++ tokensOf body ∧
    sepsOf (interleaveTok hs body) = hs.map Prod.snd ++ sepsOf body := by
  intro hs
  induction hs with
  | nil => intro body _; simp [interleaveTok]
  | cons p hs ih =>
    intro body h
    obtain ⟨hp1, hp2⟩ := h p (List.mem_cons_self p hs)
    have ih2 := ih body (fun q hq => h q (List.mem_cons_of_mem _ hq))
    have hfold : interleaveTok (p :: hs) body =
        p.1 ++ p.2 :: interleaveTok hs body := rfl
    rw [hfold]
    have hsk : splitKeep (p.1 ++ p.2 :: interleaveTok hs body) =
        (p.1, (p.2, (splitKeep (interleaveTok hs body)).1) ::
          (splitKeep (interleaveTok hs body)).2) := by
      rw [splitKeep_token p.1 _ hp1, splitKeep_sep p.2 _ hp2]
      simp
    constructor
    · simp only [tokensOf, hsk, List.map_cons]
      rw [show (splitKeep (interleaveTok hs body)).1 ::
          List.map Prod.snd (splitKeep (interleaveTok hs body)).2 =
          tokensOf (interleaveTok hs body) from rfl, ih2.1]
      simp [tokensOf]
    · simp only [sepsOf, hsk, List.map_cons]
      rw [show List.map Prod.fst (splitKeep (interleaveTok hs body)).2 =
          sepsOf (interleaveTok hs body) from rfl, ih2.2]
      simp [sepsOf]

theorem tokensOf_length (s : Str) :
    (tokensOf s).length = (sepsOf s).length + 1 := by
  simp [tokensOf, sepsOf]

theorem recomp_splitKeep (s : Str) : recomp (splitKeep s) = s := by
  induction s with
  | nil => rfl
  | cons c s ih =>
    by_cases h : rustIsWhitespace c = true
    · rw [splitKeep_sep c s h]
      simpa [recomp] using ih
    · rw [Bool.not_eq_true] at h
      simp only [splitKeep, h, Bool.false_eq_true, if_false]
      simpa [recomp] using ih

theorem splitKeep_last_group (c : Char) (h : rustIsWhitespace c = true) :
    ∀ s : Str, ∃ gs, (splitKeep (s ++ [c])).2 = gs ++ [(c, [])] := by
  intro s
  induction s with
  | nil =>
    refine ⟨[], ?_⟩
    rw [List.nil_append, splitKeep_sep c [] h]
    rfl
  | cons a s ih =>
    obtain ⟨gs, hgs⟩ := ih
    by_cases ha : rustIsWhitespace a = true
    · rw [List.cons_append, splitKeep_sep a _ ha]
      exact ⟨(a, (splitKeep (s ++ [c])).1) :: gs, by simp [hgs]⟩
    · rw [Bool.not_eq_true] at ha
      rw [List.cons_append]
      simp only [splitKeep, ha, Bool.false_eq_true, if_false]
      exact ⟨gs, hgs⟩

theorem joinToks_flatten :
    ∀ (gs : List (Char × Str)) (t0 : Str) (c : Char),
    (((t0 :: gs.map Prod.snd).zip (gs.map Prod.fst ++ [c])).map
      (fun p => p.1 ++ [p.2])).flatten =
    t0 ++ (gs.map (fun g => g.1 :: g.2)).flatten ++ [c] := by
  intro gs
  induction gs with
  | nil => intro t0 c; simp
  | cons g gs ih =>
    intro t0 c
    simp only [List.map_cons, List.cons_append, List.zip_cons_cons,
      List.flatten_cons]
    rw [ih g.2 c]
    simp [List.append_assoc]

theorem joinToks_recover (s : Str) (c : Char) (h : rustIsWhitespace c = true) :
    joinToks ((tokensOf (s ++ [c])).dropLast) (sepsOf (s ++ [c])) = s := by
  obtain ⟨gs, hgs⟩ := splitKeep_last_group c h s
  have hre := recomp_splitKeep (s ++ [c])
  rw [recomp, hgs] at hre
  simp only [List.map_append, List.flatten_append, List.map_cons,
    List.flatten_cons, List.map_nil, List.flatten_nil, List.append_nil] at hre
  have hre2 : (splitKeep (s ++ [c])).1 ++
      (gs.map (fun g => g.1 :: g.2)).flatten = s := by
    have := congrArg List.dropLast hre
    simpa [← List.append_assoc, List.dropLast_concat] using this
  have htoks : (tokensOf (s ++ [c])).dropLast =
      (splitKeep (s ++ [c])).1 :: gs.map Prod.snd := by
    rw [tokensOf, hgs]
    simp only [List.map_append, List.map_cons, List.map_nil]
    rw [show (splitKeep (s ++ [c])).1 :: (gs.map Prod.snd ++ [[]]) =
        ((splitKeep (s ++ [c])).1 :: gs.map Prod.snd) ++ [[]] by simp,
      List.dropLast_concat]
  have hseps : sepsOf (s ++ [c]) = gs.map Prod.fst ++ [c] := by
    rw [sepsOf, hgs]
    simp
  rw [htoks, hseps, joinToks, joinToks_flatten gs _ c]
  rw [show (splitKeep (s ++ [c])).1 ++
      (gs.map (fun g => g.1 :: g.2)).flatten ++ [c] =
      ((splitKeep (s ++ [c])).1 ++
        (gs.map (fun g => g.1 :: g.2)).flatten) ++ [c] by simp,
    List.dropLast_concat, hre2]

theorem tokensOf_token_nl (tok : Str) (c : Char) (htok : wsFreeB tok = true)
    (h : rustIsWhitespace c = true) :
    tokensOf (tok ++ [c]) = [tok, []] ∧ sepsOf (tok ++ [c]) = [c] := by
  have hsk : splitKeep (tok ++ [c]) = (tok, [(c, [])]) := by
    rw [splitKeep_token tok _ htok, splitKeep_sep c [] h]
    simp [splitKeep]
  constructor <;> simp [tokensOf, sepsOf, hsk]

theorem mask_wrap (c d : Char) (mid : Str) : mask (c :: (mid ++ [d])) = mid := by
  have hlen : (c :: (mid ++ [d])).length ≥ 2 := by
    simp [List.length_append]
  have hdrop : ((c :: (mid ++ [d])).drop 1).dropLast = mid := by
    simp [List.dropLast_append_of_ne_nil]
  simp [mask, hlen, hdrop]

theorem wsFree_noNl (s : Str) (h : wsFreeB s = true) : noNlB s = true := by
  rw [wsFreeB, List.all_eq_true] at h
  rw [noNlB, List.all_eq_true]
  intro c hc
  have := h c hc
  simp only [Bool.not_eq_true'] at this
  simp only [bne_iff_ne, ne_eq]
  intro hEq
  subst hEq
  exact absurd this (by decide)

theorem linesOf_single (s : Str) (h : noNlB s = true) :
    linesOf (s ++ ['\n']) = [s ++ ['\n']] := by
  induction s with
  | nil => simp [linesOf]
  | cons a s ih =>
    simp only [noNlB, List.all_cons, Bool.and_eq_true] at h
    have ih2 := ih h.2
    have ha : ¬(a = '\n') := by simpa using h.1
    rw [List.cons_append]
    simp only [linesOf, ha, if_false, ih2]

theorem runReadsW_single_ev (line : Str) (e : Event)
    (h : lineStep line = LineOut.ev e) :
    runReadsW [Except.ok line] = ([e], false) := by
  simp [runReadsW, h]

theorem lineStep_shaped (line : Str) (d tk : Str) (build : Int → Event)
    (h : lineShapes ((tokensOf line).dropLast) (sepsOf line) =
      some (d, tk, build)) (ts : Int)
    (hp : parseTimestamp d tk = some ts) :
    lineStep line = LineOut.ev (build ts) := by
  simp [lineStep, h, hp]

theorem decode_msg_line (T1 T2 sender content : Str)
    (h1 : wsFreeB T1 = true) (h2 : wsFreeB T2 = true)
    (hs : wsFreeB sender = true) (hsne : sender ≠ [])
    (hm1 : sender ≠ sLit "-->") (hm2 : sender ≠ sLit "<--")
    (hm3 : sender ≠ sLit "--") (ts : Int)
    (hp : parseTimestamp T1 T2 = some ts) :
    lineStep (T1 ++ [' '] ++ T2 ++ ['\t'] ++ sender ++ ['\t'] ++
        content ++ ['\n']) =
      LineOut.ev (Event.msg sender content ts) := by
  have hline : T1 ++ [' '] ++ T2 ++ ['\t'] ++ sender ++ ['\t'] ++
      content ++ ['\n'] =
      interleaveTok [(T1, ' '), (T2, '\t'), (sender, '\t')]
        (content ++ ['\n']) := by
    simp [interleaveTok, List.append_assoc]
  obtain ⟨htoks, hseps⟩ := tokensOf_interleave
    [(T1, ' '), (T2, '\t'), (sender, '\t')] (content ++ ['\n'])
    (by
      intro p hp
      simp only [List.mem_cons, List.not_mem_nil, or_false] at hp
      rcases hp with rfl | rfl | rfl
      · exact ⟨h1, rfl⟩
      · exact ⟨h2, rfl⟩
      · exact ⟨hs, rfl⟩)
  rw [hline]
  have hbody_ne : tokensOf (content ++ ['\n']) ≠ [] := by
    simp [tokensOf]
  have htoksInit : (tokensOf (interleaveTok [(T1, ' '), (T2, '\t'),
      (sender, '\t')] (content ++ ['\n']))).dropLast =
      T1 :: T2 :: sender :: (tokensOf (content ++ ['\n'])).dropLast := by
    rw [htoks]
    have : List.map Prod.fst [(T1, ' '), (T2, '\t'), (sender, '\t')] =
        [T1, T2, sender] := rfl
    rw [this, List.dropLast_append_of_ne_nil _ hbody_ne]
    simp
  have hsepsEq : sepsOf (interleaveTok [(T1, ' '), (T2, '\t'),
      (sender, '\t')] (content ++ ['\n'])) =
      ' ' :: '\t' :: '\t' :: sepsOf (content ++ ['\n']) := by
    rw [hseps]
    rfl
  rw [lineStep, htoksInit, hsepsEq]
  have hget2 : (T1 :: T2 :: sender ::
      (tokensOf (content ++ ['\n'])).dropLast).getD 2 [] = sender := by
    simp [List.getD_cons_succ, List.getD_cons_zero]
  have hjoin : tryJoin (T1 :: T2 :: sender ::
      (tokensOf (content ++ ['\n'])).dropLast) = none := by
    unfold tryJoin
    rw [if_neg]
    rintro ⟨-, hc, -⟩
    rw [hget2] at hc
    exact hm1 hc
  have hpart : tryPart (T1 :: T2 :: sender ::
      (tokensOf (content ++ ['\n'])).dropLast)
      (' ' :: '\t' :: '\t' :: sepsOf (content ++ ['\n'])) = none := by
    unfold tryPart
    rw [if_neg]
    rintro ⟨-, hc, -⟩
    rw [hget2] at hc
    exact hm2 hc
  have hquit : tryQuit (T1 :: T2 :: sender ::
      (tokensOf (content ++ ['\n'])).dropLast)
      (' ' :: '\t' :: '\t' :: sepsOf (content ++ ['\n'])) = none := by
    unfold tryQuit
    rw [if_neg]
    rintro ⟨-, hc, -⟩
    rw [hget2] at hc
    exact hm2 hc
  have hnotice : tryNotice (T1 :: T2 :: sender ::
      (tokensOf (content ++ ['\n'])).dropLast)
      (' ' :: '\t' :: '\t' :: sepsOf (content ++ ['\n'])) = none := by
    unfold tryNotice
    rw [if_neg]
    rintro ⟨-, hc, -⟩
    rw [hget2] at hc
    exact hm3 hc
  have hdisc : tryDisconnect (T1 :: T2 :: sender ::
      (tokensOf (content ++ ['\n'])).dropLast) = none := by
    unfold tryDisconnect
    rw [if_neg]
    rintro ⟨-, hc, -⟩
    rw [hget2] at hc
    exact hm3 hc
  have hnick : tryNick (T1 :: T2 :: sender ::
      (tokensOf (content ++ ['\n'])).dropLast) = none := by
    unfold tryNick
    rw [if_neg]
    rintro ⟨-, hc, -⟩
    rw [hget2] at hc
    exact hm3 hc
  have haction : tryAction (T1 :: T2 :: sender ::
      (tokensOf (content ++ ['\n'])).dropLast)
      (' ' :: '\t' :: '\t' :: sepsOf (content ++ ['\n'])) = none := by
    unfold tryAction
    rw [if_neg]
    rintro ⟨-, hc, -⟩
    rw [hget2] at hc
    exact hsne hc
  have hlen : (T1 :: T2 :: sender ::
      (tokensOf (content ++ ['\n'])).dropLast).length ≥ 3 := by
    simp
  have hmsg : tryMsg (T1 :: T2 :: sender ::
      (tokensOf (content ++ ['\n'])).dropLast)
      (' ' :: '\t' :: '\t' :: sepsOf (content ++ ['\n'])) =
      some (T1, T2, fun v => Event.msg sender content v) := by
    unfold tryMsg
    rw [if_pos hlen]
    have hd3 : (T1 :: T2 :: sender ::
        (tokensOf (content ++ ['\n'])).dropLast).drop 3 =
        (tokensOf (content ++ ['\n'])).dropLast := rfl
    have hsd3 : (' ' :: '\t' :: '\t' ::
        sepsOf (content ++ ['\n'])).drop 3 = sepsOf (content ++ ['\n']) := rfl
    rw [hd3, hsd3, hget2,
      joinToks_recover content '\n' (by decide)]
    simp [List.getD_cons_succ, List.getD_cons_zero]
  simp only [lineShapes, hjoin, hpart, hquit, hnotice, hdisc, hnick, haction,
    Option.none_orElse, hmsg, Option.some_orElse]
  simp [hp]

theorem decode_join_line (T1 T2 nk channel mk : Str)
    (h1 : wsFreeB T1 = true) (h2 : wsFreeB T2 = true)
    (hn : wsFreeB nk = true) (hc : wsFreeB channel = true)
    (hm : wsFreeB mk = true) (ts : Int)
    (hp : parseTimestamp T1 T2 = some ts) :
    lineStep (T1 ++ [' '] ++ T2 ++ sLit "\t-->\t" ++ nk ++ sLit " (" ++ mk ++
        sLit ") has joined " ++ channel ++ ['\n']) =
      LineOut.ev (Event.join nk channel (mask ('(' :: (mk ++ [')']))) ts) := by
  have hhost : wsFreeB ('(' :: (mk ++ [')'])) = true := by
    simp only [wsFreeB] at hm ⊢
    simp [List.all_append, hm]
    exact ⟨by decide, by decide⟩
  have hline : T1 ++ [' '] ++ T2 ++ sLit "\t-->\t" ++ nk ++ sLit " (" ++ mk ++
      sLit ") has joined " ++ channel ++ ['\n'] =
      interleaveTok [(T1, ' '), (T2, '\t'), (['-', '-', '>'], '\t'),
        (nk, ' '), ('(' :: (mk ++ [')']), ' '), (['h', 'a', 's'], ' '),
        (['j', 'o', 'i', 'n', 'e', 'd'], ' ')] (channel ++ ['\n']) := by
    simp [interleaveTok, List.append_assoc,
      (show sLit "\t-->\t" = ['\t', '-', '-', '>', '\t'] from rfl),
      (show sLit " (" = [' ', '('] from rfl),
      (show sLit ") has joined " =
        [')', ' ', 'h', 'a', 's', ' ', 'j', 'o', 'i', 'n', 'e', 'd', ' ']
        from rfl)]
  obtain ⟨htoks, hseps⟩ := tokensOf_interleave
    [(T1, ' '), (T2, '\t'), (['-', '-', '>'], '\t'), (nk, ' '),
     ('(' :: (mk ++ [')']), ' '), (['h', 'a', 's'], ' '),
     (['j', 'o', 'i', 'n', 'e', 'd'], ' ')] (channel ++ ['\n'])
    (by
      intro p hp
      simp only [List.mem_cons, List.not_mem_nil, or_false] at hp
      rcases hp with rfl | rfl | rfl | rfl | rfl | rfl | rfl
      · exact ⟨h1, rfl⟩
      · exact ⟨h2, rfl⟩
      · exact ⟨rfl, rfl⟩
      · exact ⟨hn, rfl⟩
      · exact ⟨hhost, rfl⟩
      · exact ⟨rfl, rfl⟩
      · exact ⟨rfl, rfl⟩)
  obtain ⟨hbt, hbs⟩ := tokensOf_token_nl channel '\n' hc (by decide)
  rw [hline]
  have htoksInit : (tokensOf (interleaveTok [(T1, ' '), (T2, '\t'),
      (['-', '-', '>'], '\t'), (nk, ' '), ('(' :: (mk ++ [')']), ' '),
      (['h', 'a', 's'], ' '), (['j', 'o', 'i', 'n', 'e', 'd'], ' ')]
      (channel ++ ['\n']))).dropLast =
      [T1, T2, ['-', '-', '>'], nk, '(' :: (mk ++ [')']), ['h', 'a', 's'],
       ['j', 'o', 'i', 'n', 'e', 'd'], channel] := by
    rw [htoks, hbt]
    rfl
  have hsepsEq : sepsOf (interleaveTok [(T1, ' '), (T2, '\t'),
      (['-', '-', '>'], '\t'), (nk, ' '), ('(' :: (mk ++ [')']), ' '),
      (['h', 'a', 's'], ' '), (['j', 'o', 'i', 'n', 'e', 'd'], ' ')]
      (channel ++ ['\n'])) =
      [' ', '\t', '\t', ' ', ' ', ' ', ' ', '\n'] := by
    rw [hseps, hbs]
    rfl
  rw [lineStep, htoksInit, hsepsEq]
  have hfire : tryJoin [T1, T2, ['-', '-', '>'], nk, '(' :: (mk ++ [')']),
      ['h', 'a', 's'], ['j', 'o', 'i', 'n', 'e', 'd'], channel] =
      some (T1, T2,
        fun v => Event.join nk channel (mask ('(' :: (mk ++ [')']))) v) := by
    unfold tryJoin
    rw [if_pos ⟨by simp, rfl, rfl, rfl⟩]
    simp [List.getD_cons_succ, List.getD_cons_zero]
  simp only [lineShapes, hfire, Option.some_orElse]
  simp [hp]

theorem decode_disconnect_line (T1 T2 : Str)
    (h1 : wsFreeB T1 = true) (h2 : wsFreeB T2 = true) (ts : Int)
    (hp : parseTimestamp T1 T2 = some ts) :
    lineStep (T1 ++ [' '] ++ T2 ++ sLit "\t--\tirc: disconnected from server" ++
        ['\n']) = LineOut.ev (Event.disconnect ts) := by
  have hline : T1 ++ [' '] ++ T2 ++ sLit "\t--\tirc: disconnected from server" ++
      ['\n'] =
      interleaveTok [(T1, ' '), (T2, '\t'), (['-', '-'], '\t'),
        (['i', 'r', 'c', ':'], ' '),
        (['d', 'i', 's', 'c', 'o', 'n', 'n', 'e', 'c', 't', 'e', 'd'], ' '),
        (['f', 'r', 'o', 'm'], ' ')]
        (['s', 'e', 'r', 'v', 'e', 'r'] ++ ['\n']) := by
    simp [interleaveTok, List.append_assoc,
      (show sLit "\t--\tirc: disconnected from server" =
        ['\t', '-', '-', '\t', 'i', 'r', 'c', ':', ' ', 'd', 'i', 's', 'c',
         'o', 'n', 'n', 'e', 'c', 't', 'e', 'd', ' ', 'f', 'r', 'o', 'm',
         ' ', 's', 'e', 'r', 'v', 'e', 'r'] from rfl)]
  obtain ⟨htoks, hseps⟩ := tokensOf_interleave
    [(T1, ' '), (T2, '\t'), (['-', '-'], '\t'), (['i', 'r', 'c', ':'], ' '),
     (['d', 'i', 's', 'c', 'o', 'n', 'n', 'e', 'c', 't', 'e', 'd'], ' '),
     (['f', 'r', 'o', 'm'], ' ')] (['s', 'e', 'r', 'v', 'e', 'r'] ++ ['\n'])
    (by
      intro p hp
      simp only [List.mem_cons, List.not_mem_nil, or_false] at hp
      rcases hp with rfl | rfl | rfl | rfl | rfl | rfl
      · exact ⟨h1, rfl⟩
      · exact ⟨h2, rfl⟩
      · exact ⟨rfl, rfl⟩
      · exact ⟨rfl, rfl⟩
      · exact ⟨rfl, rfl⟩
      · exact ⟨rfl, rfl⟩)
  rw [hline]
  have htoksInit : (tokensOf (interleaveTok [(T1, ' '), (T2, '\t'),
      (['-', '-'], '\t'), (['i', 'r', 'c', ':'], ' '),
      (['d', 'i', 's', 'c', 'o', 'n', 'n', 'e', 'c', 't', 'e', 'd'], ' '),
      (['f', 'r', 'o', 'm'], ' ')]
      (['s', 'e', 'r', 'v', 'e', 'r'] ++ ['\n']))).dropLast =
      [T1, T2, ['-', '-'], ['i', 'r', 'c', ':'],
       ['d', 'i', 's', 'c', 'o', 'n', 'n', 'e', 'c', 't', 'e', 'd'],
       ['f', 'r', 'o', 'm'], ['s', 'e', 'r', 'v', 'e', 'r']] := by
    rw [htoks]
    rfl
  have hsepsEq : sepsOf (interleaveTok [(T1, ' '), (T2, '\t'),
      (['-', '-'], '\t'), (['i', 'r', 'c', ':'], ' '),
      (['d', 'i', 's', 'c', 'o', 'n', 'n', 'e', 'c', 't', 'e', 'd'], ' '),
      (['f', 'r', 'o', 'm'], ' ')]
      (['s', 'e', 'r', 'v', 'e', 'r'] ++ ['\n'])) =
      [' ', '\t', '\t', ' ', ' ', ' ', '\n'] := by
    rw [hseps]
    rfl
  rw [lineStep, htoksInit, hsepsEq]
  have hget2d : ([T1, T2, ['-', '-'], ['i', 'r', 'c', ':'],
      ['d', 'i', 's', 'c', 'o', 'n', 'n', 'e', 'c', 't', 'e', 'd'],
      ['f', 'r', 'o', 'm'], ['s', 'e', 'r', 'v', 'e', 'r']] :
      List Str).getD 2 [] = ['-', '-'] := rfl
  have hget3d : ([T1, T2, ['-', '-'], ['i', 'r', 'c', ':'],
      ['d', 'i', 's', 'c', 'o', 'n', 'n', 'e', 'c', 't', 'e', 'd'],
      ['f', 'r', 'o', 'm'], ['s', 'e', 'r', 'v', 'e', 'r']] :
      List Str).getD 3 [] = ['i', 'r', 'c', ':'] := rfl
  have hj : tryJoin [T1, T2, ['-', '-'], ['i', 'r', 'c', ':'],
      ['d', 'i', 's', 'c', 'o', 'n', 'n', 'e', 'c', 't', 'e', 'd'],
      ['f', 'r', 'o', 'm'], ['s', 'e', 'r', 'v', 'e', 'r']] = none := by
    unfold tryJoin
    rw [if_neg]
    rintro ⟨-, hc, -⟩
    rw [hget2d] at hc
    exact absurd hc (by decide)
  have hpt : tryPart [T1, T2, ['-', '-'], ['i', 'r', 'c', ':'],
      ['d', 'i', 's', 'c', 'o', 'n', 'n', 'e', 'c', 't', 'e', 'd'],
      ['f', 'r', 'o', 'm'], ['s', 'e', 'r', 'v', 'e', 'r']]
      [' ', '\t', '\t', ' ', ' ', ' ', '\n'] = none := by
    unfold tryPart
    rw [if_neg]
    rintro ⟨-, hc, -⟩
    rw [hget2d] at hc
    exact absurd hc (by decide)
  have hq : tryQuit [T1, T2, ['-', '-'], ['i', 'r', 'c', ':'],
      ['d', 'i', 's', 'c', 'o', 'n', 'n', 'e', 'c', 't', 'e', 'd'],
      ['f', 'r', 'o', 'm'], ['s', 'e', 'r', 'v', 'e', 'r']]
      [' ', '\t', '\t', ' ', ' ', ' ', '\n'] = none := by
    unfold tryQuit
    rw [if_neg]
    rintro ⟨-, hc, -⟩
    rw [hget2d] at hc
    exact absurd hc (by decide)
  have hno : tryNotice [T1, T2, ['-', '-'], ['i', 'r', 'c', ':'],
      ['d', 'i', 's', 'c', 'o', 'n', 'n', 'e', 'c', 't', 'e', 'd'],
      ['f', 'r', 'o', 'm'], ['s', 'e', 'r', 'v', 'e', 'r']]
      [' ', '\t', '\t', ' ', ' ', ' ', '\n'] = none := by
    unfold tryNotice
    rw [if_neg]
    rintro ⟨-, -, hc⟩
    rw [hget3d] at hc
    exact absurd hc (by decide)
  have hfire : tryDisconnect [T1, T2, ['-', '-'], ['i', 'r', 'c', ':'],
      ['d', 'i', 's', 'c', 'o', 'n', 'n', 'e', 'c', 't', 'e', 'd'],
      ['f', 'r', 'o', 'm'], ['s', 'e', 'r', 'v', 'e', 'r']] =
      some (T1, T2, fun v => Event.disconnect v) := by
    unfold tryDisconnect
    rw [if_pos ⟨by simp, rfl, rfl, rfl, rfl, rfl⟩]
    simp [List.getD_cons_succ, List.getD_cons_zero]
  simp only [lineShapes, hj, hpt, hq, hno, Option.none_orElse, hfire,
    Option.some_orElse]
  simp [hp]

theorem decode_action_line (T1 T2 sender content : Str)
    (h1 : wsFreeB T1 = true) (h2 : wsFreeB T2 = true)
    (hs : wsFreeB sender = true) (ts : Int)
    (hp : parseTimestamp T1 T2 = some ts) :
    lineStep (T1 ++ [' '] ++ T2 ++ sLit "\t *\t" ++ sender ++ [' '] ++
        content ++ ['\n']) =
      LineOut.ev (Event.action sender content ts) := by
  have hline : T1 ++ [' '] ++ T2 ++ sLit "\t *\t" ++ sender ++ [' '] ++
      content ++ ['\n'] =
      interleaveTok [(T1, ' '), (T2, '\t'), ([], ' '), (['*'], '\t'),
        (sender, ' ')] (content ++ ['\n']) := by
    simp [interleaveTok, List.append_assoc,
      (show sLit "\t *\t" = ['\t', ' ', '*', '\t'] from rfl)]
  obtain ⟨htoks, hseps⟩ := tokensOf_interleave
    [(T1, ' '), (T2, '\t'), (([] : Str), ' '), (['*'], '\t'), (sender, ' ')]
    (content ++ ['\n'])
    (by
      intro p hp
      simp only [List.mem_cons, List.not_mem_nil, or_false] at hp
      rcases hp with rfl | rfl | rfl | rfl | rfl
      · exact ⟨h1, rfl⟩
      · exact ⟨h2, rfl⟩
      · exact ⟨rfl, rfl⟩
      · exact ⟨rfl, rfl⟩
      · exact ⟨hs, rfl⟩)
  rw [hline]
  have hbody_ne : tokensOf (content ++ ['\n']) ≠ [] := by
    simp [tokensOf]
  have htoksInit : (tokensOf (interleaveTok [(T1, ' '), (T2, '\t'),
      (([] : Str), ' '), (['*'], '\t'), (sender, ' ')]
      (content ++ ['\n']))).dropLast =
      T1 :: T2 :: [] :: ['*'] :: sender ::
        (tokensOf (content ++ ['\n'])).dropLast := by
    rw [htoks]
    have : List.map Prod.fst [(T1, ' '), (T2, '\t'), (([] : Str), ' '),
        (['*'], '\t'), (sender, ' ')] = [T1, T2, [], ['*'], sender] := rfl
    rw [this, List.dropLast_append_of_ne_nil _ hbody_ne]
    simp
  have hsepsEq : sepsOf (interleaveTok [(T1, ' '), (T2, '\t'),
      (([] : Str), ' '), (['*'], '\t'), (sender, ' ')]
      (content ++ ['\n'])) =
      ' ' :: '\t' :: ' ' :: '\t' :: ' ' :: sepsOf (content ++ ['\n']) := by
    rw [hseps]
    rfl
  rw [lineStep, htoksInit, hsepsEq]
  have hget2 : (T1 :: T2 :: [] :: ['*'] :: sender ::
      (tokensOf (content ++ ['\n'])).dropLast).getD 2 [] = ([] : Str) := rfl
  have hj : tryJoin (T1 :: T2 :: [] :: ['*'] :: sender ::
      (tokensOf (content ++ ['\n'])).dropLast) = none := by
    unfold tryJoin
    rw [if_neg]
    rintro ⟨-, hc, -⟩
    rw [hget2] at hc
    exact absurd hc (by decide)
  have hpt : tryPart (T1 :: T2 :: [] :: ['*'] :: sender ::
      (tokensOf (content ++ ['\n'])).dropLast)
      (' ' :: '\t' :: ' ' :: '\t' :: ' ' :: sepsOf (content ++ ['\n'])) =
      none := by
    unfold tryPart
    rw [if_neg]
    rintro ⟨-, hc, -⟩
    rw [hget2] at hc
    exact absurd hc (by decide)
  have hq : tryQuit (T1 :: T2 :: [] :: ['*'] :: sender ::
      (tokensOf (content ++ ['\n'])).dropLast)
      (' ' :: '\t' :: ' ' :: '\t' :: ' ' :: sepsOf (content ++ ['\n'])) =
      none := by
    unfold tryQuit
    rw [if_neg]
    rintro ⟨-, hc, -⟩
    rw [hget2] at hc
    exact absurd hc (by decide)
  have hno : tryNotice (T1 :: T2 :: [] :: ['*'] :: sender ::
      (tokensOf (content ++ ['\n'])).dropLast)
      (' ' :: '\t' :: ' ' :: '\t' :: ' ' :: sepsOf (content ++ ['\n'])) =
      none := by
    unfold tryNotice
    rw [if_neg]
    rintro ⟨-, hc, -⟩
    rw [hget2] at hc
    exact absurd hc (by decide)
  have hd : tryDisconnect (T1 :: T2 :: [] :: ['*'] :: sender ::
      (tokensOf (content ++ ['\n'])).dropLast) = none := by
    unfold tryDisconnect
    rw [if_neg]
    rintro ⟨-, hc, -⟩
    rw [hget2] at hc
    exact absurd hc (by decide)
  have hnk : tryNick (T1 :: T2 :: [] :: ['*'] :: sender ::
      (tokensOf (content ++ ['\n'])).dropLast) = none := by
    unfold tryNick
    rw [if_neg]
    rintro ⟨-, hc, -⟩
    rw [hget2] at hc
    exact absurd hc (by decide)
  have hfire : tryAction (T1 :: T2 :: [] :: ['*'] :: sender ::
      (tokensOf (content ++ ['\n'])).dropLast)
      (' ' :: '\t' :: ' ' :: '\t' :: ' ' :: sepsOf (content ++ ['\n'])) =
      some (T1, T2, fun v => Event.action sender content v) := by
    unfold tryAction
    rw [if_pos ⟨by simp, rfl, rfl⟩]
    have hd5 : (T1 :: T2 :: [] :: ['*'] :: sender ::
        (tokensOf (content ++ ['\n'])).dropLast).drop 5 =
        (tokensOf (content ++ ['\n'])).dropLast := rfl
    have hsd5 : (' ' :: '\t' :: ' ' :: '\t' :: ' ' ::
        sepsOf (content ++ ['\n'])).drop 5 = sepsOf (content ++ ['\n']) := rfl
    rw [hd5, hsd5, joinToks_recover content '\n' (by decide)]
    simp [List.getD_cons_succ, List.getD_cons_zero]
  simp only [lineShapes, hj, hpt, hq, hno, hd, hnk, Option.none_orElse, hfire,
    Option.some_orElse]
  simp [hp]

theorem decode_notice_line (T1 T2 nk content : Str)
    (h1 : wsFreeB T1 = true) (h2 : wsFreeB T2 = true)
    (hn : wsFreeB nk = true) (ts : Int)
    (hp : parseTimestamp T1 T2 = some ts) :
    lineStep (T1 ++ [' '] ++ T2 ++ sLit "\t--\tNotice(" ++ nk ++ sLit "): " ++
        content ++ ['\n']) =
      LineOut.ev (Event.notice nk content ts) := by
  have hntok : wsFreeB (['N', 'o', 't', 'i', 'c', 'e', '('] ++
      (nk ++ [')', ':'])) = true := by
    simp only [wsFreeB, List.all_append, Bool.and_eq_true] at hn ⊢
    exact ⟨by decide, hn, by decide⟩
  have hline : T1 ++ [' '] ++ T2 ++ sLit "\t--\tNotice(" ++ nk ++ sLit "): " ++
      content ++ ['\n'] =
      interleaveTok [(T1, ' '), (T2, '\t'), (['-', '-'], '\t'),
        (['N', 'o', 't', 'i', 'c', 'e', '('] ++ (nk ++ [')', ':']), ' ')]
        (content ++ ['\n']) := by
    simp [interleaveTok, List.append_assoc,
      (show sLit "\t--\tNotice(" =
        ['\t', '-', '-', '\t', 'N', 'o', 't', 'i', 'c', 'e', '('] from rfl),
      (show sLit "): " = [')', ':', ' '] from rfl)]
  obtain ⟨htoks, hseps⟩ := tokensOf_interleave
    [(T1, ' '), (T2, '\t'), (['-', '-'], '\t'),
     (['N', 'o', 't', 'i', 'c', 'e', '('] ++ (nk ++ [')', ':']), ' ')]
    (content ++ ['\n'])
    (by
      intro p hp
      simp only [List.mem_cons, List.not_mem_nil, or_false] at hp
      rcases hp with rfl | rfl | rfl | rfl
      · exact ⟨h1, rfl⟩
      · exact ⟨h2, rfl⟩
      · exact ⟨rfl, rfl⟩
      · exact ⟨hntok, rfl⟩)
  rw [hline]
  have hbody_ne : tokensOf (content ++ ['\n']) ≠ [] := by
    simp [tokensOf]
  have htoksInit : (tokensOf (interleaveTok [(T1, ' '), (T2, '\t'),
      (['-', '-'], '\t'),
      (['N', 'o', 't', 'i', 'c', 'e', '('] ++ (nk ++ [')', ':']), ' ')]
      (content ++ ['\n']))).dropLast =
      T1 :: T2 :: ['-', '-'] ::
        (['N', 'o', 't', 'i', 'c', 'e', '('] ++ (nk ++ [')', ':'])) ::
        (tokensOf (content ++ ['\n'])).dropLast := by
    rw [htoks]
    have : List.map Prod.fst [(T1, ' '), (T2, '\t'), (['-', '-'], '\t'),
        (['N', 'o', 't', 'i', 'c', 'e', '('] ++ (nk ++ [')', ':']), ' ')] =
        [T1, T2, ['-', '-'],
         ['N', 'o', 't', 'i', 'c', 'e', '('] ++ (nk ++ [')', ':'])] := rfl
    rw [this, List.dropLast_append_of_ne_nil _ hbody_ne]
    simp
  have hsepsEq : sepsOf (interleaveTok [(T1, ' '), (T2, '\t'),
      (['-', '-'], '\t'),
      (['N', 'o', 't', 'i', 'c', 'e', '('] ++ (nk ++ [')', ':']), ' ')]
      (content ++ ['\n'])) =
      ' ' :: '\t' :: '\t' :: ' ' :: sepsOf (content ++ ['\n']) := by
    rw [hseps]
    rfl
  rw [lineStep, htoksInit, hsepsEq]
  have hget2 : (T1 :: T2 :: ['-', '-'] ::
      (['N', 'o', 't', 'i', 'c', 'e', '('] ++ (nk ++ [')', ':'])) ::
      (tokensOf (content ++ ['\n'])).dropLast).getD 2 [] = ['-', '-'] := rfl
  have hj : tryJoin (T1 :: T2 :: ['-', '-'] ::
      (['N', 'o', 't', 'i', 'c', 'e', '('] ++ (nk ++ [')', ':'])) ::
      (tokensOf (content ++ ['\n'])).dropLast) = none := by
    unfold tryJoin
    rw [if_neg]
    rintro ⟨-, hc, -⟩
    rw [hget2] at hc
    exact absurd hc (by decide)
  have hpt : tryPart (T1 :: T2 :: ['-', '-'] ::
      (['N', 'o', 't', 'i', 'c', 'e', '('] ++ (nk ++ [')', ':'])) ::
      (tokensOf (content ++ ['\n'])).dropLast)
      (' ' :: '\t' :: '\t' :: ' ' :: sepsOf (content ++ ['\n'])) = none := by
    unfold tryPart
    rw [if_neg]
    rintro ⟨-, hc, -⟩
    rw [hget2] at hc
    exact absurd hc (by decide)
  have hq : tryQuit (T1 :: T2 :: ['-', '-'] ::
      (['N', 'o', 't', 'i', 'c', 'e', '('] ++ (nk ++ [')', ':'])) ::
      (tokensOf (content ++ ['\n'])).dropLast)
      (' ' :: '\t' :: '\t' :: ' ' :: sepsOf (content ++ ['\n'])) = none := by
    unfold tryQuit
    rw [if_neg]
    rintro ⟨-, hc, -⟩
    rw [hget2] at hc
    exact absurd hc (by decide)
  have hfire : tryNotice (T1 :: T2 :: ['-', '-'] ::
      (['N', 'o', 't', 'i', 'c', 'e', '('] ++ (nk ++ [')', ':'])) ::
      (tokensOf (content ++ ['\n'])).dropLast)
      (' ' :: '\t' :: '\t' :: ' ' :: sepsOf (content ++ ['\n'])) =
      some (T1, T2, fun v => Event.notice nk content v) := by
    unfold tryNotice
    rw [if_pos]
    · have hgd3 : (T1 :: T2 :: ['-', '-'] ::
          (['N', 'o', 't', 'i', 'c', 'e', '('] ++ (nk ++ [')', ':'])) ::
          (tokensOf (content ++ ['\n'])).dropLast).getD 3 [] =
          ['N', 'o', 't', 'i', 'c', 'e', '('] ++ (nk ++ [')', ':']) := rfl
      have hd4 : (T1 :: T2 :: ['-', '-'] ::
          (['N', 'o', 't', 'i', 'c', 'e', '('] ++ (nk ++ [')', ':'])) ::
          (tokensOf (content ++ ['\n'])).dropLast).drop 4 =
          (tokensOf (content ++ ['\n'])).dropLast := rfl
      have hsd4 : (' ' :: '\t' :: '\t' :: ' ' ::
          sepsOf (content ++ ['\n'])).drop 4 = sepsOf (content ++ ['\n']) := rfl
      rw [hgd3, hd4, hsd4, joinToks_recover content '\n' (by decide)]
      have hdrop7 : ((['N', 'o', 't', 'i', 'c', 'e', '('] ++
          (nk ++ [')', ':'])) : Str).drop 7 = nk ++ [')', ':'] := by
        rw [show (7 : Nat) =
            (['N', 'o', 't', 'i', 'c', 'e', '('] : Str).length from rfl,
          List.drop_left]
      rw [hdrop7]
      have hsplit : nk ++ [')', ':'] = (nk ++ [')']) ++ [':'] := by simp
      rw [hsplit, List.dropLast_concat, List.dropLast_concat]
      simp [List.getD_cons_succ, List.getD_cons_zero]
    · refine ⟨by simp, rfl, ?_⟩
      have hgd3 : (T1 :: T2 :: ['-', '-'] ::
          (['N', 'o', 't', 'i', 'c', 'e', '('] ++ (nk ++ [')', ':'])) ::
          (tokensOf (content ++ ['\n'])).dropLast).getD 3 [] =
          ['N', 'o', 't', 'i', 'c', 'e', '('] ++ (nk ++ [')', ':']) := rfl
      rw [hgd3, show (7 : Nat) =
          (['N', 'o', 't', 'i', 'c', 'e', '('] : Str).length from rfl,
        List.take_left]
      rfl
  simp only [lineShapes, hj, hpt, hq, Option.none_orElse, hfire,
    Option.some_orElse]
  simp [hp]

theorem decodeInput_single (X : Str) (e : Event) (hX : noNlB X = true)
    (h : lineStep (X ++ ['\n']) = LineOut.ev e) :
    decodeInput (X ++ ['\n']) = ([e], false) := by
  unfold decodeInput
  rw [linesOf_single X hX]
  simp [runReadsW, h]

theorem decode_part_line_noreason (T1 T2 nk channel mk : Str)
    (h1 : wsFreeB T1 = true) (h2 : wsFreeB T2 = true)
    (hn : wsFreeB nk = true) (hc : wsFreeB channel = true)
    (hm : wsFreeB mk = true) (ts : Int)
    (hp : parseTimestamp T1 T2 = some ts) :
    lineStep (T1 ++ [' '] ++ T2 ++ sLit "\t<--\t" ++ nk ++ sLit " (" ++ mk ++
        sLit ") has left " ++ channel ++ ['\n']) =
      LineOut.ev (Event.part nk channel (mask ('(' :: (mk ++ [')']))) [] ts) := by
  have hhost : wsFreeB ('(' :: (mk ++ [')'])) = true := by
    simp only [wsFreeB] at hm ⊢
    simp [List.all_append, hm]
    exact ⟨by decide, by decide⟩
  have hline : T1 ++ [' '] ++ T2 ++ sLit "\t<--\t" ++ nk ++ sLit " (" ++ mk ++
      sLit ") has left " ++ channel ++ ['\n'] =
      interleaveTok [(T1, ' '), (T2, '\t'), (['<', '-', '-'], '\t'),
        (nk, ' '), ('(' :: (mk ++ [')']), ' '), (['h', 'a', 's'], ' '),
        (['l', 'e', 'f', 't'], ' ')] (channel ++ ['\n']) := by
    simp [interleaveTok, List.append_assoc,
      (show sLit "\t<--\t" = ['\t', '<', '-', '-', '\t'] from rfl),
      (show sLit " (" = [' ', '('] from rfl),
      (show sLit ") has left " =
        [')', ' ', 'h', 'a', 's', ' ', 'l', 'e', 'f', 't', ' '] from rfl)]
  obtain ⟨htoks, hseps⟩ := tokensOf_interleave
    [(T1, ' '), (T2, '\t'), (['<', '-', '-'], '\t'), (nk, ' '),
     ('(' :: (mk ++ [')']), ' '), (['h', 'a', 's'], ' '),
     (['l', 'e', 'f', 't'], ' ')] (channel ++ ['\n'])
    (by
      intro p hp
      simp only [List.mem_cons, List.not_mem_nil, or_false] at hp
      rcases hp with rfl | rfl | rfl | rfl | rfl | rfl | rfl
      · exact ⟨h1, rfl⟩
      · exact ⟨h2, rfl⟩
      · exact ⟨rfl, rfl⟩
      · exact ⟨hn, rfl⟩
      · exact ⟨hhost, rfl⟩
      · exact ⟨rfl, rfl⟩
      · exact ⟨rfl, rfl⟩)
  obtain ⟨hbt, hbs⟩ := tokensOf_token_nl channel '\n' hc (by decide)
  rw [hline]
  have htoksInit : (tokensOf (interleaveTok [(T1, ' '), (T2, '\t'),
      (['<', '-', '-'], '\t'), (nk, ' '), ('(' :: (mk ++ [')']), ' '),
      (['h', 'a', 's'], ' '), (['l', 'e', 'f', 't'], ' ')]
      (channel ++ ['\n']))).dropLast =
      [T1, T2, ['<', '-', '-'], nk, '(' :: (mk ++ [')']), ['h', 'a', 's'],
       ['l', 'e', 'f', 't'], channel] := by
    rw [htoks, hbt]
    rfl
  have hsepsEq : sepsOf (interleaveTok [(T1, ' '), (T2, '\t'),
      (['<', '-', '-'], '\t'), (nk, ' '), ('(' :: (mk ++ [')']), ' '),
      (['h', 'a', 's'], ' '), (['l', 'e', 'f', 't'], ' ')]
      (channel ++ ['\n'])) =
      [' ', '\t', '\t', ' ', ' ', ' ', ' ', '\n'] := by
    rw [hseps, hbs]
    rfl
  rw [lineStep, htoksInit, hsepsEq]
  have hget2d : ([T1, T2, ['<', '-', '-'], nk, '(' :: (mk ++ [')']),
      ['h', 'a', 's'], ['l', 'e', 'f', 't'], channel] :
      List Str).getD 2 [] = ['<', '-', '-'] := rfl
  have hj : tryJoin [T1, T2, ['<', '-', '-'], nk, '(' :: (mk ++ [')']),
      ['h', 'a', 's'], ['l', 'e', 'f', 't'], channel] = none := by
    unfold tryJoin
    rw [if_neg]
    rintro ⟨-, hcc, -⟩
    rw [hget2d] at hcc
    exact absurd hcc (by decide)
  have hfire : tryPart [T1, T2, ['<', '-', '-'], nk, '(' :: (mk ++ [')']),
      ['h', 'a', 's'], ['l', 'e', 'f', 't'], channel]
      [' ', '\t', '\t', ' ', ' ', ' ', ' ', '\n'] =
      some (T1, T2,
        fun v => Event.part nk channel (mask ('(' :: (mk ++ [')']))) [] v) := by
    unfold tryPart
    rw [if_pos ⟨by simp, rfl, rfl, rfl⟩]
    simp [List.getD_cons_succ, List.getD_cons_zero, joinToks, mask]
  simp only [lineShapes, hj, Option.none_orElse, hfire, Option.some_orElse]
  simp [hp]

theorem decode_part_line_reason (T1 T2 nk channel mk reason : Str)
    (h1 : wsFreeB T1 = true) (h2 : wsFreeB T2 = true)
    (hn : wsFreeB nk = true) (hc : wsFreeB channel = true)
    (hm : wsFreeB mk = true) (ts : Int)
    (hp : parseTimestamp T1 T2 = some ts) :
    lineStep (T1 ++ [' '] ++ T2 ++ sLit "\t<--\t" ++ nk ++ sLit " (" ++ mk ++
        sLit ") has left " ++ channel ++ sLit " (" ++ reason ++ sLit ")" ++
        ['\n']) =
      LineOut.ev (Event.part nk channel (mask ('(' :: (mk ++ [')'])))
        (mask ('(' :: (reason ++ [')']))) ts) := by
  have hhost : wsFreeB ('(' :: (mk ++ [')'])) = true := by
    simp only [wsFreeB] at hm ⊢
    simp [List.all_append, hm]
    exact ⟨by decide, by decide⟩
  have hline : T1 ++ [' '] ++ T2 ++ sLit "\t<--\t" ++ nk ++ sLit " (" ++ mk ++
      sLit ") has left " ++ channel ++ sLit " (" ++ reason ++ sLit ")" ++
      ['\n'] =
      interleaveTok [(T1, ' '), (T2, '\t'), (['<', '-', '-'], '\t'),
        (nk, ' '), ('(' :: (mk ++ [')']), ' '), (['h', 'a', 's'], ' '),
        (['l', 'e', 'f', 't'], ' '), (channel, ' ')]
        (('(' :: (reason ++ [')'])) ++ ['\n']) := by
    simp [interleaveTok, List.append_assoc,
      (show sLit "\t<--\t" = ['\t', '<', '-', '-', '\t'] from rfl),
      (show sLit " (" = [' ', '('] from rfl),
      (show sLit ")" = [')'] from rfl),
      (show sLit ") has left " =
        [')', ' ', 'h', 'a', 's', ' ', 'l', 'e', 'f', 't', ' '] from rfl)]
  obtain ⟨htoks, hseps⟩ := tokensOf_interleave
    [(T1, ' '), (T2, '\t'), (['<', '-', '-'], '\t'), (nk, ' '),
     ('(' :: (mk ++ [')']), ' '), (['h', 'a', 's'], ' '),
     (['l', 'e', 'f', 't'], ' '), (channel, ' ')]
    (('(' :: (reason ++ [')'])) ++ ['\n'])
    (by
      intro p hp
      simp only [List.mem_cons, List.not_mem_nil, or_false] at hp
      rcases hp with rfl | rfl | rfl | rfl | rfl | rfl | rfl | rfl
      · exact ⟨h1, rfl⟩
      · exact ⟨h2, rfl⟩
      · exact ⟨rfl, rfl⟩
      · exact ⟨hn, rfl⟩
      · exact ⟨hhost, rfl⟩
      · exact ⟨rfl, rfl⟩
      · exact ⟨rfl, rfl⟩
      · exact ⟨hc, rfl⟩)
  rw [hline]
  have hbody_ne : tokensOf (('(' :: (reason ++ [')'])) ++ ['\n']) ≠ [] := by
    simp [tokensOf]
  have htoksInit : (tokensOf (interleaveTok [(T1, ' '), (T2, '\t'),
      (['<', '-', '-'], '\t'), (nk, ' '), ('(' :: (mk ++ [')']), ' '),
      (['h', 'a', 's'], ' '), (['l', 'e', 'f', 't'], ' '), (channel, ' ')]
      (('(' :: (reason ++ [')'])) ++ ['\n']))).dropLast =
      T1 :: T2 :: ['<', '-', '-'] :: nk :: ('(' :: (mk ++ [')'])) ::
        ['h', 'a', 's'] :: ['l', 'e', 'f', 't'] :: channel ::
        (tokensOf (('(' :: (reason ++ [')'])) ++ ['\n'])).dropLast := by
    rw [htoks]
    have : List.map Prod.fst [(T1, ' '), (T2, '\t'), (['<', '-', '-'], '\t'),
        (nk, ' '), ('(' :: (mk ++ [')']), ' '), (['h', 'a', 's'], ' '),
        (['l', 'e', 'f', 't'], ' '), (channel, ' ')] =
        [T1, T2, ['<', '-', '-'], nk, '(' :: (mk ++ [')']), ['h', 'a', 's'],
         ['l', 'e', 'f', 't'], channel] := rfl
    rw [this, List.dropLast_append_of_ne_nil _ hbody_ne]
    simp
  have hsepsEq : sepsOf (interleaveTok [(T1, ' '), (T2, '\t'),
      (['<', '-', '-'], '\t'), (nk, ' '), ('(' :: (mk ++ [')']), ' '),
      (['h', 'a', 's'], ' '), (['l', 'e', 'f', 't'], ' '), (channel, ' ')]
      (('(' :: (reason ++ [')'])) ++ ['\n'])) =
      ' ' :: '\t' :: '\t' :: ' ' :: ' ' :: ' ' :: ' ' :: ' ' ::
        sepsOf (('(' :: (reason ++ [')'])) ++ ['\n']) := by
    rw [hseps]
    rfl
  rw [lineStep, htoksInit, hsepsEq]
  have hget2d : (T1 :: T2 :: ['<', '-', '-'] :: nk :: ('(' :: (mk ++ [')'])) ::
      ['h', 'a', 's'] :: ['l', 'e', 'f', 't'] :: channel ::
      (tokensOf (('(' :: (reason ++ [')'])) ++ ['\n'])).dropLast).getD 2 [] =
      ['<', '-', '-'] := rfl
  have hj : tryJoin (T1 :: T2 :: ['<', '-', '-'] :: nk ::
      ('(' :: (mk ++ [')'])) :: ['h', 'a', 's'] :: ['l', 'e', 'f', 't'] ::
      channel ::
      (tokensOf (('(' :: (reason ++ [')'])) ++ ['\n'])).dropLast) = none := by
    unfold tryJoin
    rw [if_neg]
    rintro ⟨-, hcc, -⟩
    rw [hget2d] at hcc
    exact absurd hcc (by decide)
  have hfire : tryPart (T1 :: T2 :: ['<', '-', '-'] :: nk ::
      ('(' :: (mk ++ [')'])) :: ['h', 'a', 's'] :: ['l', 'e', 'f', 't'] ::
      channel ::
      (tokensOf (('(' :: (reason ++ [')'])) ++ ['\n'])).dropLast)
      (' ' :: '\t' :: '\t' :: ' ' :: ' ' :: ' ' :: ' ' :: ' ' ::
        sepsOf (('(' :: (reason ++ [')'])) ++ ['\n'])) =
      some (T1, T2,
        fun v => Event.part nk channel (mask ('(' :: (mk ++ [')'])))
          (mask ('(' :: (reason ++ [')']))) v) := by
    unfold tryPart
    rw [if_pos ⟨by simp, rfl, rfl, rfl⟩]
    have hd8 : (T1 :: T2 :: ['<', '-', '-'] :: nk :: ('(' :: (mk ++ [')'])) ::
        ['h', 'a', 's'] :: ['l', 'e', 'f', 't'] :: channel ::
        (tokensOf (('(' :: (reason ++ [')'])) ++ ['\n'])).dropLast).drop 8 =
        (tokensOf (('(' :: (reason ++ [')'])) ++ ['\n'])).dropLast := rfl
    have hsd8 : (' ' :: '\t' :: '\t' :: ' ' :: ' ' :: ' ' :: ' ' :: ' ' ::
        sepsOf (('(' :: (reason ++ [')'])) ++ ['\n'])).drop 8 =
        sepsOf (('(' :: (reason ++ [')'])) ++ ['\n']) := rfl
    rw [hd8, hsd8,
      joinToks_recover ('(' :: (reason ++ [')'])) '\n' (by decide)]
    simp [List.getD_cons_succ, List.getD_cons_zero]
  simp only [lineShapes, hj, Option.none_orElse, hfire, Option.some_orElse]
  simp [hp]

theorem decode_quit_line_noreason (T1 T2 nk mk : Str)
    (h1 : wsFreeB T1 = true) (h2 : wsFreeB T2 = true)
    (hn : wsFreeB nk = true) (hm : wsFreeB mk = true) (ts : Int)
    (hp : parseTimestamp T1 T2 = some ts) :
    lineStep (T1 ++ [' '] ++ T2 ++ sLit "\t<--\t" ++ nk ++ sLit " (" ++ mk ++
        sLit ") has quit" ++ ['\n']) =
      LineOut.ev (Event.quit nk (mask ('(' :: (mk ++ [')']))) [] ts) := by
  have hhost : wsFreeB ('(' :: (mk ++ [')'])) = true := by
    simp only [wsFreeB] at hm ⊢
    simp [List.all_append, hm]
    exact ⟨by decide, by decide⟩
  have hline : T1 ++ [' '] ++ T2 ++ sLit "\t<--\t" ++ nk ++ sLit " (" ++ mk ++
      sLit ") has quit" ++ ['\n'] =
      interleaveTok [(T1, ' '), (T2, '\t'), (['<', '-', '-'], '\t'),
        (nk, ' '), ('(' :: (mk ++ [')']), ' '), (['h', 'a', 's'], ' ')]
        (['q', 'u', 'i', 't'] ++ ['\n']) := by
    simp [interleaveTok, List.append_assoc,
      (show sLit "\t<--\t" = ['\t', '<', '-', '-', '\t'] from rfl),
      (show sLit " (" = [' ', '('] from rfl),
      (show sLit ") has quit" =
        [')', ' ', 'h', 'a', 's', ' ', 'q', 'u', 'i', 't'] from rfl)]
  obtain ⟨htoks, hseps⟩ := tokensOf_interleave
    [(T1, ' '), (T2, '\t'), (['<', '-', '-'], '\t'), (nk, ' '),
     ('(' :: (mk ++ [')']), ' '), (['h', 'a', 's'], ' ')]
    (['q', 'u', 'i', 't'] ++ ['\n'])
    (by
      intro p hp
      simp only [List.mem_cons, List.not_mem_nil, or_false] at hp
      rcases hp with rfl | rfl | rfl | rfl | rfl | rfl
      · exact ⟨h1, rfl⟩
      · exact ⟨h2, rfl⟩
      · exact ⟨rfl, rfl⟩
      · exact ⟨hn, rfl⟩
      · exact ⟨hhost, rfl⟩
      · exact ⟨rfl, rfl⟩)
  rw [hline]
  have htoksInit : (tokensOf (interleaveTok [(T1, ' '), (T2, '\t'),
      (['<', '-', '-'], '\t'), (nk, ' '), ('(' :: (mk ++ [')']), ' '),
      (['h', 'a', 's'], ' ')] (['q', 'u', 'i', 't'] ++ ['\n']))).dropLast =
      [T1, T2, ['<', '-', '-'], nk, '(' :: (mk ++ [')']), ['h', 'a', 's'],
       ['q', 'u', 'i', 't']] := by
    rw [htoks]
    rfl
  have hsepsEq : sepsOf (interleaveTok [(T1, ' '), (T2, '\t'),
      (['<', '-', '-'], '\t'), (nk, ' '), ('(' :: (mk ++ [')']), ' '),
      (['h', 'a', 's'], ' ')] (['q', 'u', 'i', 't'] ++ ['\n'])) =
      [' ', '\t', '\t', ' ', ' ', ' ', '\n'] := by
    rw [hseps]
    rfl
  rw [lineStep, htoksInit, hsepsEq]
  have hget2d : ([T1, T2, ['<', '-', '-'], nk, '(' :: (mk ++ [')']),
      ['h', 'a', 's'], ['q', 'u', 'i', 't']] : List Str).getD 2 [] =
      ['<', '-', '-'] := rfl
  have hj : tryJoin [T1, T2, ['<', '-', '-'], nk, '(' :: (mk ++ [')']),
      ['h', 'a', 's'], ['q', 'u', 'i', 't']] = none := by
    unfold tryJoin
    rw [if_neg]
    rintro ⟨-, hcc, -⟩
    rw [hget2d] at hcc
    exact absurd hcc (by decide)
  have hpt : tryPart [T1, T2, ['<', '-', '-'], nk, '(' :: (mk ++ [')']),
      ['h', 'a', 's'], ['q', 'u', 'i', 't']]
      [' ', '\t', '\t', ' ', ' ', ' ', '\n'] = none := by
    unfold tryPart
    rw [if_neg]
    rintro ⟨hlen, -⟩
    simp at hlen
  have hfire : tryQuit [T1, T2, ['<', '-', '-'], nk, '(' :: (mk ++ [')']),
      ['h', 'a', 's'], ['q', 'u', 'i', 't']]
      [' ', '\t', '\t', ' ', ' ', ' ', '\n'] =
      some (T1, T2,
        fun v => Event.quit nk (mask ('(' :: (mk ++ [')']))) [] v) := by
    unfold tryQuit
    rw [if_pos ⟨by simp, rfl, rfl, rfl⟩]
    simp [List.getD_cons_succ, List.getD_cons_zero, joinToks, mask]
  simp only [lineShapes, hj, hpt, Option.none_orElse, hfire,
    Option.some_orElse]
  simp [hp]

theorem decode_quit_line_reason (T1 T2 nk mk reason : Str)
    (h1 : wsFreeB T1 = true) (h2 : wsFreeB T2 = true)
    (hn : wsFreeB nk = true) (hm : wsFreeB mk = true) (ts : Int)
    (hp : parseTimestamp T1 T2 = some ts) :
    lineStep (T1 ++ [' '] ++ T2 ++ sLit "\t<--\t" ++ nk ++ sLit " (" ++ mk ++
        sLit ") has quit" ++ sLit " (" ++ reason ++ sLit ")" ++ ['\n']) =
      LineOut.ev (Event.quit nk (mask ('(' :: (mk ++ [')'])))
        (mask ('(' :: (reason ++ [')']))) ts) := by
  have hhost : wsFreeB ('(' :: (mk ++ [')'])) = true := by
    simp only [wsFreeB] at hm ⊢
    simp [List.all_append, hm]
    exact ⟨by decide, by decide⟩
  have hline : T1 ++ [' '] ++ T2 ++ sLit "\t<--\t" ++ nk ++ sLit " (" ++ mk ++
      sLit ") has quit" ++ sLit " (" ++ reason ++ sLit ")" ++ ['\n'] =
      interleaveTok [(T1, ' '), (T2, '\t'), (['<', '-', '-'], '\t'),
        (nk, ' '), ('(' :: (mk ++ [')']), ' '), (['h', 'a', 's'], ' '),
        (['q', 'u', 'i', 't'], ' ')]
        (('(' :: (reason ++ [')'])) ++ ['\n']) := by
    simp [interleaveTok, List.append_assoc,
      (show sLit "\t<--\t" = ['\t', '<', '-', '-', '\t'] from rfl),
      (show sLit " (" = [' ', '('] from rfl),
      (show sLit ")" = [')'] from rfl),
      (show sLit ") has quit" =
        [')', ' ', 'h', 'a', 's', ' ', 'q', 'u', 'i', 't'] from rfl)]
  obtain ⟨htoks, hseps⟩ := tokensOf_interleave
    [(T1, ' '), (T2, '\t'), (['<', '-', '-'], '\t'), (nk, ' '),
     ('(' :: (mk ++ [')']), ' '), (['h', 'a', 's'], ' '),
     (['q', 'u', 'i', 't'], ' ')] (('(' :: (reason ++ [')'])) ++ ['\n'])
    (by
      intro p hp
      simp only [List.mem_cons, List.not_mem_nil, or_false] at hp
      rcases hp with rfl | rfl | rfl | rfl | rfl | rfl | rfl
      · exact ⟨h1, rfl⟩
      · exact ⟨h2, rfl⟩
      · exact ⟨rfl, rfl⟩
      · exact ⟨hn, rfl⟩
      · exact ⟨hhost, rfl⟩
      · exact ⟨rfl, rfl⟩
      · exact ⟨rfl, rfl⟩)
  rw [hline]
  have hbody_ne : tokensOf (('(' :: (reason ++ [')'])) ++ ['\n']) ≠ [] := by
    simp [tokensOf]
  have htoksInit : (tokensOf (interleaveTok [(T1, ' '), (T2, '\t'),
      (['<', '-', '-'], '\t'), (nk, ' '), ('(' :: (mk ++ [')']), ' '),
      (['h', 'a', 's'], ' '), (['q', 'u', 'i', 't'], ' ')]
      (('(' :: (reason ++ [')'])) ++ ['\n']))).dropLast =
      T1 :: T2 :: ['<', '-', '-'] :: nk :: ('(' :: (mk ++ [')'])) ::
        ['h', 'a', 's'] :: ['q', 'u', 'i', 't'] ::
        (tokensOf (('(' :: (reason ++ [')'])) ++ ['\n'])).dropLast := by
    rw [htoks]
    have : List.map Prod.fst [(T1, ' '), (T2, '\t'), (['<', '-', '-'], '\t'),
        (nk, ' '), ('(' :: (mk ++ [')']), ' '), (['h', 'a', 's'], ' '),
        (['q', 'u', 'i', 't'], ' ')] =
        [T1, T2, ['<', '-', '-'], nk, '(' :: (mk ++ [')']), ['h', 'a', 's'],
         ['q', 'u', 'i', 't']] := rfl
    rw [this, List.dropLast_append_of_ne_nil _ hbody_ne]
    simp
  have hsepsEq : sepsOf (interleaveTok [(T1, ' '), (T2, '\t'),
      (['<', '-', '-'], '\t'), (nk, ' '), ('(' :: (mk ++ [')']), ' '),
      (['h', 'a', 's'], ' '), (['q', 'u', 'i', 't'], ' ')]
      (('(' :: (reason ++ [')'])) ++ ['\n'])) =
      ' ' :: '\t' :: '\t' :: ' ' :: ' ' :: ' ' :: ' ' ::
        sepsOf (('(' :: (reason ++ [')'])) ++ ['\n']) := by
    rw [hseps]
    rfl
  rw [lineStep, htoksInit, hsepsEq]
  have hget2d : (T1 :: T2 :: ['<', '-', '-'] :: nk :: ('(' :: (mk ++ [')'])) ::
      ['h', 'a', 's'] :: ['q', 'u', 'i', 't'] ::
      (tokensOf (('(' :: (reason ++ [')'])) ++ ['\n'])).dropLast).getD 2 [] =
      ['<', '-', '-'] := rfl
  have hget6d : (T1 :: T2 :: ['<', '-', '-'] :: nk :: ('(' :: (mk ++ [')'])) ::
      ['h', 'a', 's'] :: ['q', 'u', 'i', 't'] ::
      (tokensOf (('(' :: (reason ++ [')'])) ++ ['\n'])).dropLast).getD 6 [] =
      ['q', 'u', 'i', 't'] := rfl
  have hj : tryJoin (T1 :: T2 :: ['<', '-', '-'] :: nk ::
      ('(' :: (mk ++ [')'])) :: ['h', 'a', 's'] :: ['q', 'u', 'i', 't'] ::
      (tokensOf (('(' :: (reason ++ [')'])) ++ ['\n'])).dropLast) = none := by
    unfold tryJoin
    rw [if_neg]
    rintro ⟨-, hcc, -⟩
    rw [hget2d] at hcc
    exact absurd hcc (by decide)
  have hpt : tryPart (T1 :: T2 :: ['<', '-', '-'] :: nk ::
      ('(' :: (mk ++ [')'])) :: ['h', 'a', 's'] :: ['q', 'u', 'i', 't'] ::
      (tokensOf (('(' :: (reason ++ [')'])) ++ ['\n'])).dropLast)
      (' ' :: '\t' :: '\t' :: ' ' :: ' ' :: ' ' :: ' ' ::
        sepsOf (('(' :: (reason ++ [')'])) ++ ['\n'])) = none := by
    unfold tryPart
    rw [if_neg]
    rintro ⟨-, -, -, hcc⟩
    rw [hget6d] at hcc
    exact absurd hcc (by decide)
  have hfire : tryQuit (T1 :: T2 :: ['<', '-', '-'] :: nk ::
      ('(' :: (mk ++ [')'])) :: ['h', 'a', 's'] :: ['q', 'u', 'i', 't'] ::
      (tokensOf (('(' :: (reason ++ [')'])) ++ ['\n'])).dropLast)
      (' ' :: '\t' :: '\t' :: ' ' :: ' ' :: ' ' :: ' ' ::
        sepsOf (('(' :: (reason ++ [')'])) ++ ['\n'])) =
      some (T1, T2,
        fun v => Event.quit nk (mask ('(' :: (mk ++ [')'])))
          (mask ('(' :: (reason ++ [')']))) v) := by
    unfold tryQuit
    rw [if_pos ⟨by simp, rfl, rfl, rfl⟩]
    have hd7 : (T1 :: T2 :: ['<', '-', '-'] :: nk :: ('(' :: (mk ++ [')'])) ::
        ['h', 'a', 's'] :: ['q', 'u', 'i', 't'] ::
        (tokensOf (('(' :: (reason ++ [')'])) ++ ['\n'])).dropLast).drop 7 =
        (tokensOf (('(' :: (reason ++ [')'])) ++ ['\n'])).dropLast := rfl
    have hsd7 : (' ' :: '\t' :: '\t' :: ' ' :: ' ' :: ' ' :: ' ' ::
        sepsOf (('(' :: (reason ++ [')'])) ++ ['\n'])).drop 7 =
        sepsOf (('(' :: (reason ++ [')'])) ++ ['\n']) := rfl
    rw [hd7, hsd7,
      joinToks_recover ('(' :: (reason ++ [')'])) '\n' (by decide)]
    simp [List.getD_cons_succ, List.getD_cons_zero]
  simp only [lineShapes, hj, hpt, Option.none_orElse, hfire,
    Option.some_orElse]
  simp [hp]

/-- Claim C4, counterexample: the claim quantifies over every event, but
for the `Msg` event with sender `a b` (whitespace inside the nick field)
and content `c`, encoding and decoding yields a different event — the
tokenizer splits the sender, so the decoder returns sender `a` with
content `b<TAB>c`. -/
theorem c4_counterexample :
    decodeInput (encodeEvent (Event.msg (sLit "a b") (sLit "c") 0)) =
      ([Event.msg (sLit "a") (sLit "b\tc") 0], false) ∧
    Event.msg (sLit "a") (sLit "b\tc") 0 ≠ Event.msg (sLit "a b") (sLit "c") 0 := by
  decide

/-- Claim C4, amended: for every event except `Nick` whose single-token
fields (sender, nick, mask, channel) are whitespace-free, whose `Msg`
sender is nonempty and none of the marker tokens, whose free-text fields
contain no newline, and whose timestamp lies in 1970-01-01 through
9999-12-31, encoding with the weechat3 encoder and decoding the produced
bytes yields exactly that event (full structural equality including
time), with no panic; a `Nick` event writes nothing on encode and the
encoder reports success. -/
theorem c4_encode_decode_roundtrip (e : Event) (hwf : wfEvent e)
    (hnick : ∀ o n t, e ≠ Event.nick o n t) :
    decodeInput (encodeEvent e) = ([e], false) ∧
    (∀ o n t, encodeEvent (Event.nick o n t) = []) := by
  refine ⟨?_, fun o n t => rfl⟩
  cases e with
  | msg sender content t =>
    obtain ⟨hs, hsne, hm1, hm2, hm3, hcnl, ht0, ht1⟩ := hwf
    have henc : encodeEvent (Event.msg sender content t) =
        formatDate t ++ [' '] ++ formatTimeOfDay t ++ ['\t'] ++ sender ++
        ['\t'] ++ content ++ ['\n'] := rfl
    rw [henc]
    have d1 := wsFree_noNl _ (formatDate_wsFree t)
    have d2 := wsFree_noNl _ (formatTimeOfDay_wsFree t)
    have d3 := wsFree_noNl _ hs
    have hX : noNlB (formatDate t ++ [' '] ++ formatTimeOfDay t ++ ['\t'] ++
        sender ++ ['\t'] ++ content) = true := by
      simp only [noNlB, List.all_append, Bool.and_eq_true] at d1 d2 d3 hcnl ⊢
      exact ⟨⟨⟨⟨⟨⟨d1, by decide⟩, d2⟩, by decide⟩, d3⟩, by decide⟩, hcnl⟩
    exact decodeInput_single _ _ hX
      (decode_msg_line (formatDate t) (formatTimeOfDay t) sender content
        (formatDate_wsFree t) (formatTimeOfDay_wsFree t) hs hsne hm1 hm2 hm3
        t (parseTimestamp_formatStamp t ht0 ht1))
  | action sender content t =>
    obtain ⟨hs, hcnl, ht0, ht1⟩ := hwf
    have henc : encodeEvent (Event.action sender content t) =
        formatDate t ++ [' '] ++ formatTimeOfDay t ++ sLit "\t *\t" ++
        sender ++ [' '] ++ content ++ ['\n'] := rfl
    rw [henc]
    have d1 := wsFree_noNl _ (formatDate_wsFree t)
    have d2 := wsFree_noNl _ (formatTimeOfDay_wsFree t)
    have d3 := wsFree_noNl _ hs
    have hX : noNlB (formatDate t ++ [' '] ++ formatTimeOfDay t ++
        sLit "\t *\t" ++ sender ++ [' '] ++ content) = true := by
      simp only [noNlB, List.all_append, Bool.and_eq_true] at d1 d2 d3 hcnl ⊢
      exact ⟨⟨⟨⟨⟨⟨d1, by decide⟩, d2⟩, by decide⟩, d3⟩, by decide⟩, hcnl⟩
    exact decodeInput_single _ _ hX
      (decode_action_line (formatDate t) (formatTimeOfDay t) sender content
        (formatDate_wsFree t) (formatTimeOfDay_wsFree t) hs
        t (parseTimestamp_formatStamp t ht0 ht1))
  | notice nk content t =>
    obtain ⟨hn, hcnl, ht0, ht1⟩ := hwf
    have henc : encodeEvent (Event.notice nk content t) =
        formatDate t ++ [' '] ++ formatTimeOfDay t ++ sLit "\t--\tNotice(" ++
        nk ++ sLit "): " ++ content ++ ['\n'] := rfl
    rw [henc]
    have d1 := wsFree_noNl _ (formatDate_wsFree t)
    have d2 := wsFree_noNl _ (formatTimeOfDay_wsFree t)
    have d3 := wsFree_noNl _ hn
    have hX : noNlB (formatDate t ++ [' '] ++ formatTimeOfDay t ++
        sLit "\t--\tNotice(" ++ nk ++ sLit "): " ++ content) = true := by
      simp only [noNlB, List.all_append, Bool.and_eq_true] at d1 d2 d3 hcnl ⊢
      exact ⟨⟨⟨⟨⟨⟨d1, by decide⟩, d2⟩, by decide⟩, d3⟩, by decide⟩, hcnl⟩
    exact decodeInput_single _ _ hX
      (decode_notice_line (formatDate t) (formatTimeOfDay t) nk content
        (formatDate_wsFree t) (formatTimeOfDay_wsFree t) hn
        t (parseTimestamp_formatStamp t ht0 ht1))
  | join nk channel mk t =>
    obtain ⟨hn, hc, hm, ht0, ht1⟩ := hwf
    have henc : encodeEvent (Event.join nk channel mk t) =
        formatDate t ++ [' '] ++ formatTimeOfDay t ++ sLit "\t-->\t" ++ nk ++
        sLit " (" ++ mk ++ sLit ") has joined " ++ channel ++ ['\n'] := rfl
    rw [henc]
    have d1 := wsFree_noNl _ (formatDate_wsFree t)
    have d2 := wsFree_noNl _ (formatTimeOfDay_wsFree t)
    have d3 := wsFree_noNl _ hn
    have d4 := wsFree_noNl _ hc
    have d5 := wsFree_noNl _ hm
    have hX : noNlB (formatDate t ++ [' '] ++ formatTimeOfDay t ++
        sLit "\t-->\t" ++ nk ++ sLit " (" ++ mk ++ sLit ") has joined " ++
        channel) = true := by
      simp only [noNlB, List.all_append, Bool.and_eq_true] at d1 d2 d3 d4 d5 ⊢
      exact ⟨⟨⟨⟨⟨⟨⟨⟨d1, by decide⟩, d2⟩, by decide⟩, d3⟩, by decide⟩, d5⟩,
        by decide⟩, d4⟩
    have hstep := decode_join_line (formatDate t) (formatTimeOfDay t)
      nk channel mk (formatDate_wsFree t) (formatTimeOfDay_wsFree t) hn hc hm
      t (parseTimestamp_formatStamp t ht0 ht1)
    rw [mask_wrap '(' ')' mk] at hstep
    exact decodeInput_single _ _ hX hstep
  | part nk channel mk reason t =>
    obtain ⟨hn, hc, hm, hrnl, ht0, ht1⟩ := hwf
    have d1 := wsFree_noNl _ (formatDate_wsFree t)
    have d2 := wsFree_noNl _ (formatTimeOfDay_wsFree t)
    have d3 := wsFree_noNl _ hn
    have d4 := wsFree_noNl _ hc
    have d5 := wsFree_noNl _ hm
    by_cases hr : reason = []
    · subst hr
      have henc : encodeEvent (Event.part nk channel mk [] t) =
          formatDate t ++ [' '] ++ formatTimeOfDay t ++ sLit "\t<--\t" ++
          nk ++ sLit " (" ++ mk ++ sLit ") has left " ++ channel ++
          ['\n'] := by
        simp [encodeEvent, formatStamp]
      rw [henc]
      have hX : noNlB (formatDate t ++ [' '] ++ formatTimeOfDay t ++
          sLit "\t<--\t" ++ nk ++ sLit " (" ++ mk ++ sLit ") has left " ++
          channel) = true := by
        simp only [noNlB, List.all_append, Bool.and_eq_true] at d1 d2 d3 d4 d5 ⊢
        exact ⟨⟨⟨⟨⟨⟨⟨⟨d1, by decide⟩, d2⟩, by decide⟩, d3⟩, by decide⟩, d5⟩,
          by decide⟩, d4⟩
      have hstep := decode_part_line_noreason (formatDate t)
        (formatTimeOfDay t) nk channel mk (formatDate_wsFree t)
        (formatTimeOfDay_wsFree t) hn hc hm t
        (parseTimestamp_formatStamp t ht0 ht1)
      rw [mask_wrap '(' ')' mk] at hstep
      exact decodeInput_single _ _ hX hstep
    · have hrpos : reason.length > 0 := List.length_pos.mpr hr
      have henc : encodeEvent (Event.part nk channel mk reason t) =
          formatDate t ++ [' '] ++ formatTimeOfDay t ++ sLit "\t<--\t" ++
          nk ++ sLit " (" ++ mk ++ sLit ") has left " ++ channel ++
          sLit " (" ++ reason ++ sLit ")" ++ ['\n'] := by
        simp [encodeEvent, formatStamp, hrpos, List.append_assoc]
      rw [henc]
      have hX : noNlB (formatDate t ++ [' '] ++ formatTimeOfDay t ++
          sLit "\t<--\t" ++ nk ++ sLit " (" ++ mk ++ sLit ") has left " ++
          channel ++ sLit " (" ++ reason ++ sLit ")") = true := by
        simp only [noNlB, List.all_append, Bool.and_eq_true]
          at d1 d2 d3 d4 d5 hrnl ⊢
        exact ⟨⟨⟨⟨⟨⟨⟨⟨⟨⟨⟨d1, by decide⟩, d2⟩, by decide⟩, d3⟩, by decide⟩,
          d5⟩, by decide⟩, d4⟩, by decide⟩, hrnl⟩, by decide⟩
      have hstep := decode_part_line_reason (formatDate t) (formatTimeOfDay t)
        nk channel mk reason (formatDate_wsFree t) (formatTimeOfDay_wsFree t)
        hn hc hm t (parseTimestamp_formatStamp t ht0 ht1)
      rw [mask_wrap '(' ')' mk, mask_wrap '(' ')' reason] at hstep
      exact decodeInput_single _ _ hX hstep
  | quit nk mk reason t =>
    obtain ⟨hn, hm, hrnl, ht0, ht1⟩ := hwf
    have d1 := wsFree_noNl _ (formatDate_wsFree t)
    have d2 := wsFree_noNl _ (formatTimeOfDay_wsFree t)
    have d3 := wsFree_noNl _ hn
    have d5 := wsFree_noNl _ hm
    by_cases hr : reason = []
    · subst hr
      have henc : encodeEvent (Event.quit nk mk [] t) =
          formatDate t ++ [' '] ++ formatTimeOfDay t ++ sLit "\t<--\t" ++
          nk ++ sLit " (" ++ mk ++ sLit ") has quit" ++ ['\n'] := by
        simp [encodeEvent, formatStamp]
      rw [henc]
      have hX : noNlB (formatDate t ++ [' '] ++ formatTimeOfDay t ++
          sLit "\t<--\t" ++ nk ++ sLit " (" ++ mk ++
          sLit ") has quit") = true := by
        simp only [noNlB, List.all_append, Bool.and_eq_true] at d1 d2 d3 d5 ⊢
        exact ⟨⟨⟨⟨⟨⟨⟨d1, by decide⟩, d2⟩, by decide⟩, d3⟩, by decide⟩, d5⟩,
          by decide⟩
      have hstep := decode_quit_line_noreason (formatDate t)
        (formatTimeOfDay t) nk mk (formatDate_wsFree t)
        (formatTimeOfDay_wsFree t) hn hm t
        (parseTimestamp_formatStamp t ht0 ht1)
      rw [mask_wrap '(' ')' mk] at hstep
      exact decodeInput_single _ _ hX hstep
    · have hrpos : reason.length > 0 := List.length_pos.mpr hr
      have henc : encodeEvent (Event.quit nk mk reason t) =
          formatDate t ++ [' '] ++ formatTimeOfDay t ++ sLit "\t<--\t" ++
          nk ++ sLit " (" ++ mk ++ sLit ") has quit" ++
          sLit " (" ++ reason ++ sLit ")" ++ ['\n'] := by
        simp [encodeEvent, formatStamp, hrpos, List.append_assoc]
      rw [henc]
      have hX : noNlB (formatDate t ++ [' '] ++ formatTimeOfDay t ++
          sLit "\t<--\t" ++ nk ++ sLit " (" ++ mk ++ sLit ") has quit" ++
          sLit " (" ++ reason ++ sLit ")") = true := by
        simp only [noNlB, List.all_append, Bool.and_eq_true]
          at d1 d2 d3 d5 hrnl ⊢
        exact ⟨⟨⟨⟨⟨⟨⟨⟨⟨⟨d1, by decide⟩, d2⟩, by decide⟩, d3⟩, by decide⟩,
          d5⟩, by decide⟩, by decide⟩, hrnl⟩, by decide⟩
      have hstep := decode_quit_line_reason (formatDate t) (formatTimeOfDay t)
        nk mk reason (formatDate_wsFree t) (formatTimeOfDay_wsFree t)
        hn hm t (parseTimestamp_formatStamp t ht0 ht1)
      rw [mask_wrap '(' ')' mk, mask_wrap '(' ')' reason] at hstep
      exact decodeInput_single _ _ hX hstep
  | nick o n t => exact absurd rfl (hnick o n t)
  | disconnect t =>
    obtain ⟨ht0, ht1⟩ := hwf
    have henc : encodeEvent (Event.disconnect t) =
        formatDate t ++ [' '] ++ formatTimeOfDay t ++
        sLit "\t--\tirc: disconnected from server" ++ ['\n'] := rfl
    rw [henc]
    have d1 := wsFree_noNl _ (formatDate_wsFree t)
    have d2 := wsFree_noNl _ (formatTimeOfDay_wsFree t)
    have hX : noNlB (formatDate t ++ [' '] ++ formatTimeOfDay t ++
        sLit "\t--\tirc: disconnected from server") = true := by
      simp only [noNlB, List.all_append, Bool.and_eq_true] at d1 d2 ⊢
      exact ⟨⟨⟨d1, by decide⟩, d2⟩, by decide⟩
    exact decodeInput_single _ _ hX
      (decode_disconnect_line (formatDate t) (formatTimeOfDay t)
        (formatDate_wsFree t) (formatTimeOfDay_wsFree t)
        t (parseTimestamp_formatStamp t ht0 ht1))

/-- Claim C4 amended, witness: a concrete well-formed message event
round-trips through encode and decode. -/
theorem c4_encode_decode_roundtrip_witness :
    decodeInput (encodeEvent
        (Event.msg (sLit "alice") (sLit "hi there") 1577872800)) =
      ([Event.msg (sLit "alice") (sLit "hi there") 1577872800], false) ∧
    (∀ o n t, encodeEvent (Event.nick o n t) = []) :=
  c4_encode_decode_roundtrip
    (Event.msg (sLit "alice") (sLit "hi there") 1577872800)
    ⟨rfl, by decide, by decide, by decide, by decide, rfl, by decide,
      by decide⟩
    (fun o n t h => Event.noConfusion h)

end Ilc
